import Mathlib

/-!
Shallow embedding of the Eversolo device adapter (src/intg_eversolo/device.py)
and proofs about its state-normalization layer.

Modelling conventions:
- JSON values are the inductive type Json; numbers are modelled as integers
  (the device API reports integral volumes, indices, and millisecond times).
- Python attribute errors and type errors raised by the code are modelled with
  the Except monad over PyErr; a total Lean result models a Python return.
- Python dicts are insertion-ordered association lists with unique keys;
  inserting an existing key updates it in place, a new key is appended.
- Python float arithmetic is modelled exactly over the rationals in the main
  definitions; where a claim is sensitive to IEEE-754 binary64 rounding, a
  separate dyadic model of correctly rounded binary64 arithmetic is used
  (pyFloatVolume below).
-/

/-- JSON values as delivered by the device HTTP API. -/
inductive Json where
  | null
  | bool (b : Bool)
  | num (n : Int)
  | str (s : String)
  | arr (elems : List Json)
  | obj (fields : List (String × Json))

/-- Python exceptions that the modelled code can raise. -/
inductive PyErr where
  | attributeError
  | typeError
  | valueError
deriving DecidableEq, Repr

/-- Lookup in a JSON object; json.loads keeps the last occurrence of a
duplicated key, so later fields win. -/
def objLookup : List (String × Json) → String → Option Json
  | [], _ => none
  | p :: rest, key =>
    match objLookup rest key with
    | some v => some v
    | none => if p.1 == key then some p.2 else none

/-- Python x.get(key, default): returns the field or the default if x is a
dict, raises AttributeError otherwise (None, int, str, list have no .get). -/
def pyGetD (j : Json) (key : String) (default : Json) : Except PyErr Json :=
  match j with
  | .obj fields => .ok ((objLookup fields key).getD default)
  | _ => .error .attributeError

/-- Python truthiness of a JSON value. -/
def jTruthy : Json → Bool
  | .null => false
  | .bool b => b
  | .num n => n != 0
  | .str s => s != ""
  | .arr elems => !elems.isEmpty
  | .obj fields => !fields.isEmpty

/-- Python equality of a JSON value with an integer constant (True == 1,
False == 0; other types compare unequal without raising). -/
def jEqInt (j : Json) (n : Int) : Bool :=
  match j with
  | .num m => m == n
  | .bool b => (if b then (1 : Int) else 0) == n
  | _ => false

/-- Coerce a JSON value to the integer Python would use in arithmetic or an
ordered comparison with an int; TypeError for non-numeric values. -/
def jAsInt : Json → Except PyErr Int
  | .num n => .ok n
  | .bool b => .ok (if b then 1 else 0)
  | _ => .error .typeError

/-- Python j > n for an int n. -/
def jGt (j : Json) (n : Int) : Except PyErr Bool :=
  (jAsInt j).map (fun m => decide (n < m))

/-- Python j >= n for an int n. -/
def jGe (j : Json) (n : Int) : Except PyErr Bool :=
  (jAsInt j).map (fun m => decide (n ≤ m))

/-- Numeric JSON value as an exact rational (Python int or bool promoted to
float); TypeError otherwise. -/
def jToQ (j : Json) : Except PyErr ℚ :=
  match j with
  | .num n => .ok (n : ℚ)
  | .bool b => .ok (if b then 1 else 0)
  | _ => .error .typeError

/-- Python int(x) for a float x: truncation toward zero. -/
def ratTrunc (q : ℚ) : Int := if q < 0 then ⌈q⌉ else ⌊q⌋

/-- Python s.replace("/", ""): remove every slash character. Implemented as
a character filter so that the kernel can evaluate it. -/
def stripSlashes (s : String) : String :=
  String.mk (s.toList.filter (fun c => !(c == '/')))

/-- Python value.replace("/", "") as used on tag fields: only str has
.replace, any other value raises AttributeError. -/
def jReplaceSlash (j : Json) : Except PyErr String :=
  match j with
  | .str s => .ok (stripSlashes s)
  | _ => .error .attributeError

/-- Whether a JSON value is hashable in Python, hence usable as a dict key. -/
def jHashable : Json → Bool
  | .arr _ => false
  | .obj _ => false
  | _ => true

/-- Python == between two hashable JSON values (dict key identification;
True == 1 and False == 0). Containers are never dict keys because inserting
them raises TypeError first, so the container cases are unreachable there. -/
def jPyEq : Json → Json → Bool
  | .null, .null => true
  | .bool a, .bool b => a == b
  | .bool a, .num m => (if a then (1 : Int) else 0) == m
  | .num n, .bool b => n == (if b then 1 else 0)
  | .num a, .num b => a == b
  | .str a, .str b => a == b
  | _, _ => false

/-- Python iteration over a JSON value: lists yield elements, strings yield
one-character strings, dicts yield their keys, scalars raise TypeError. -/
def jIter (j : Json) : Except PyErr (List Json) :=
  match j with
  | .arr elems => .ok elems
  | .str s => .ok (s.toList.map (fun c => .str (String.mk [c])))
  | .obj fields => .ok (fields.map (fun p => .str p.1))
  | _ => .error .typeError

/-- Insertion-ordered dict write with string keys: an existing key is updated
in place, a new key is appended at the end. -/
def dictInsert {α : Type} : List (String × α) → String → α → List (String × α)
  | [], k, v => [(k, v)]
  | p :: rest, k, v => if p.1 == k then (k, v) :: rest else p :: dictInsert rest k v

/-- Dict read with string keys. -/
def dictGet {α : Type} : List (String × α) → String → Option α
  | [], _ => none
  | p :: rest, k => if p.1 == k then some p.2 else dictGet rest k

/-- Insertion-ordered dict write with JSON keys compared by Python ==; on an
update the original key object is kept, as Python dicts do. -/
def jdictInsert : List (Json × String) → Json → String → List (Json × String)
  | [], k, v => [(k, v)]
  | p :: rest, k, v => if jPyEq p.1 k then (p.1, v) :: rest else p :: jdictInsert rest k v

/-- Dict read with JSON keys compared by Python ==. -/
def jdictGet : List (Json × String) → Json → Option String
  | [], _ => none
  | p :: rest, k => if jPyEq p.1 k then some p.2 else jdictGet rest k

/-- Python list.index as an option: position of the first occurrence, none
models the ValueError raised when the element is absent. -/
def listIndex {α : Type} [BEq α] : List α → α → Option Nat
  | [], _ => none
  | x :: rest, a => if x == a then some 0 else (listIndex rest a).map (fun i => i + 1)

/-- Contents of EversoloDevice._state_data: the raw poll snapshot. The dict
has exactly these keys, written only by poll_device; an Option field is none
while the key has never been stored. -/
structure StateData where
  music_control_state : Option Json := none
  input_output_state : Option Json := none
  display_brightness : Option Int := none
  knob_brightness : Option Int := none

/-- The mutable fields of EversoloDevice relevant to state normalization:
the raw snapshot and the four source and output catalogs
(_sources : tag to name, _source_tags : name to tag, and likewise outputs). -/
structure DeviceState where
  state_data : StateData := {}
  sources : List (String × Json) := []
  source_tags : List (Json × String) := []
  outputs : List (String × Json) := []
  output_tags : List (Json × String) := []

/-- Result dict of EversoloDevice.get_media_info; duration and position are
seconds (Python floats, modelled as rationals), the rest are raw JSON values
with null standing for Python None. -/
structure MediaInfo where
  title : Json := Json.null
  artist : Json := Json.null
  album : Json := Json.null
  image_url : Json := Json.null
  media_type : Json := Json.null
  duration : Option ℚ := none
  position : Option ℚ := none

/-- Python a or b on JSON values: a if truthy, else b. -/
def pyOr (a b : Json) : Json := if jTruthy a then a else b

/-- EversoloDevice.get_volume (device.py lines 332 to 343). -/
def get_volume (st : DeviceState) : Except PyErr (Option Int) := do
  let music_state := st.state_data.music_control_state.getD (Json.obj [])
  let volume_data ← pyGetD music_state "volumeData" (Json.obj [])
  let current_volume ← pyGetD volume_data "currenttVolume" Json.null
  let max_volume ← pyGetD volume_data "maxVolume" Json.null
  match current_volume with
  | Json.null => pure none
  | cur =>
    if jTruthy max_volume then do
      let gt0 ← jGt max_volume 0
      if gt0 then do
        let c ← jToQ cur
        let m ← jToQ max_volume
        pure (some (ratTrunc (c / m * 100)))
      else pure none
    else pure none

/-- EversoloDevice.get_muted (device.py lines 345 to 349). -/
def get_muted (st : DeviceState) : Except PyErr Bool := do
  let music_state := st.state_data.music_control_state.getD (Json.obj [])
  let volume_data ← pyGetD music_state "volumeData" (Json.obj [])
  let v ← pyGetD volume_data "isMute" (Json.bool false)
  pure (jTruthy v)

/-- EversoloDevice.get_state (device.py lines 351 to 363). -/
def get_state (st : DeviceState) : Except PyErr String := do
  let music_state := st.state_data.music_control_state.getD (Json.obj [])
  let s ← pyGetD music_state "state" (Json.num (-1))
  if jEqInt s 0 then pure "IDLE"
  else if jEqInt s 3 then pure "PLAYING"
  else if jEqInt s 4 then pure "PAUSED"
  else pure "UNKNOWN"

/-- EversoloDevice.get_current_source (device.py lines 365 to 373). -/
def get_current_source (st : DeviceState) : Except PyErr (Option Json) := do
  let ios := st.state_data.input_output_state.getD (Json.obj [])
  let input_index ← pyGetD ios "inputIndex" (Json.num (-1))
  let n ← jAsInt input_index
  if 0 ≤ n ∧ n < (st.sources.length : Int) then
    pure ((st.sources.map Prod.snd).get? n.toNat)
  else pure none

/-- EversoloDevice.get_current_output (device.py lines 375 to 383). -/
def get_current_output (st : DeviceState) : Except PyErr (Option Json) := do
  let ios := st.state_data.input_output_state.getD (Json.obj [])
  let output_index ← pyGetD ios "outputIndex" (Json.num (-1))
  let n ← jAsInt output_index
  if 0 ≤ n ∧ n < (st.outputs.length : Int) then
    pure ((st.outputs.map Prod.snd).get? n.toNat)
  else pure none

/-- Branch part of EversoloDevice.get_media_info (device.py lines 388 to 475):
dispatch on playType, filling title, artist, album, artwork and media type. -/
def mediaBase (music_state : Json) : Except PyErr MediaInfo := do
  let play_type ← pyGetD music_state "playType" Json.null
  if jEqInt play_type 4 || jEqInt play_type 6 || jEqInt play_type 7 then do
    let epi ← pyGetD music_state "everSoloPlayInfo" (Json.obj [])
    let audInfo ← pyGetD epi "everSoloPlayAudioInfo" (Json.obj [])
    let songName ← pyGetD audInfo "songName" Json.null
    let artistName ← pyGetD audInfo "artistName" Json.null
    let albumName ← pyGetD audInfo "albumName" Json.null
    let albumUrl ← pyGetD audInfo "albumUrl" Json.null
    let albumArt ← pyGetD audInfo "albumArt" Json.null
    let artwork ← pyGetD audInfo "artwork" Json.null
    let coverArt ← pyGetD audInfo "coverArt" Json.null
    let image ← pyGetD audInfo "image" Json.null
    let thumb ← pyGetD audInfo "thumb" Json.null
    pure { title := songName, artist := artistName, album := albumName,
           image_url := pyOr albumUrl (pyOr albumArt (pyOr artwork (pyOr coverArt (pyOr image thumb)))),
           media_type := Json.str "MUSIC" }
  else if jEqInt play_type 5 then do
    let playingMusic ← pyGetD music_state "playingMusic" (Json.obj [])
    let title ← pyGetD playingMusic "title" Json.null
    let artist ← pyGetD playingMusic "artist" Json.null
    let album ← pyGetD playingMusic "album" Json.null
    let albumArt ← pyGetD playingMusic "albumArt" Json.null
    let albumArtBig ← pyGetD playingMusic "albumArtBig" Json.null
    let artwork ← pyGetD playingMusic "artwork" Json.null
    let image ← pyGetD playingMusic "image" Json.null
    let thumb ← pyGetD playingMusic "thumb" Json.null
    let coverUrl ← pyGetD playingMusic "coverUrl" Json.null
    pure { title := title, artist := artist, album := album,
           image_url := pyOr albumArt (pyOr albumArtBig (pyOr artwork (pyOr image (pyOr thumb coverUrl)))),
           media_type := Json.str "MUSIC" }
  else do
    let epi ← pyGetD music_state "everSoloPlayInfo" (Json.obj [])
    let audInfo ← pyGetD epi "everSoloPlayAudioInfo" (Json.obj [])
    let playingMusic ← pyGetD music_state "playingMusic" (Json.obj [])
    let pmTitle ← pyGetD playingMusic "title" Json.null
    let songName ← pyGetD audInfo "songName" Json.null
    let pmArtist ← pyGetD playingMusic "artist" Json.null
    let artistName ← pyGetD audInfo "artistName" Json.null
    let pmAlbum ← pyGetD playingMusic "album" Json.null
    let albumName ← pyGetD audInfo "albumName" Json.null
    let pmAlbumArt ← pyGetD playingMusic "albumArt" Json.null
    let pmAlbumArtBig ← pyGetD playingMusic "albumArtBig" Json.null
    let pmArtwork ← pyGetD playingMusic "artwork" Json.null
    let albumUrl ← pyGetD audInfo "albumUrl" Json.null
    let albumArt ← pyGetD audInfo "albumArt" Json.null
    let artwork ← pyGetD audInfo "artwork" Json.null
    pure { title := pyOr pmTitle songName,
           artist := pyOr pmArtist artistName,
           album := pyOr pmAlbum albumName,
           image_url := pyOr pmAlbumArt (pyOr pmAlbumArtBig (pyOr pmArtwork (pyOr albumUrl (pyOr albumArt artwork)))),
           media_type := Json.str "MUSIC" }

/-- EversoloDevice.get_media_info (device.py lines 385 to 486): branch part,
then milliseconds-to-seconds conversion of duration (only when > 0) and
position (whenever >= 0). -/
def get_media_info (st : DeviceState) : Except PyErr MediaInfo := do
  let music_state := st.state_data.music_control_state.getD (Json.obj [])
  let base ← mediaBase music_state
  let durJ ← pyGetD music_state "duration" (Json.num 0)
  let durPos ← jGt durJ 0
  let withDur ←
    if durPos then do
      let d ← jToQ durJ
      pure { base with duration := some (d / 1000) }
    else pure base
  let posJ ← pyGetD music_state "position" (Json.num 0)
  let posOk ← jGe posJ 0
  if posOk then do
    let p ← jToQ posJ
    pure { withDur with position := some (p / 1000) }
  else pure withDur

/-- Loop body of EversoloDevice._parse_sources (device.py lines 309 to 314):
strip slashes from the tag, keep the entry when both tag and name are truthy,
writing the two catalog dicts. The Option PyErr output carries an exception
raised mid-step together with the mutations already applied. -/
def parseSourceStep (acc : List (String × Json) × List (Json × String)) (source : Json) :
    (List (String × Json) × List (Json × String)) × Option PyErr :=
  match pyGetD source "tag" (Json.str "") with
  | .error e => (acc, some e)
  | .ok tagJ =>
    match jReplaceSlash tagJ with
    | .error e => (acc, some e)
    | .ok tag =>
      match pyGetD source "name" (Json.str "") with
      | .error e => (acc, some e)
      | .ok name =>
        if (tag != "") && jTruthy name then
          let srcs := dictInsert acc.1 tag name
          if jHashable name then ((srcs, jdictInsert acc.2 name tag), none)
          else ((srcs, acc.2), some PyErr.typeError)
        else (acc, none)

/-- For-loop of EversoloDevice._parse_sources: left-to-right, stopping at the
first raised exception while keeping the mutations made so far. -/
def parseSourcesLoop : List Json → (List (String × Json) × List (Json × String)) →
    (List (String × Json) × List (Json × String)) × Option PyErr
  | [], acc => (acc, none)
  | s :: rest, acc =>
    match parseSourceStep acc s with
    | (acc2, none) => parseSourcesLoop rest acc2
    | (acc2, some e) => (acc2, some e)

/-- EversoloDevice._parse_sources (device.py lines 303 to 314). The old
catalogs are kept when the very first line raises, since the reset of
_sources and _source_tags happens after the inputData read. -/
def parse_sources (input_output_state : Json)
    (old : List (String × Json) × List (Json × String)) :
    (List (String × Json) × List (Json × String)) × Option PyErr :=
  match pyGetD input_output_state "inputData" (Json.arr []) with
  | .error e => (old, some e)
  | .ok srcJ =>
    match jIter srcJ with
    | .error e => (([], []), some e)
    | .ok entries => parseSourcesLoop entries ([], [])

/-- Loop body of EversoloDevice._parse_outputs (device.py lines 324 to 330):
the entry is processed only when its enable field is the boolean True
(Python is True), then filtered like a source entry. -/
def parseOutputStep (acc : List (String × Json) × List (Json × String)) (output : Json) :
    (List (String × Json) × List (Json × String)) × Option PyErr :=
  match pyGetD output "enable" Json.null with
  | .error e => (acc, some e)
  | .ok en =>
    match en with
    | Json.bool true =>
      (match pyGetD output "tag" (Json.str "") with
      | .error e => (acc, some e)
      | .ok tagJ =>
        match jReplaceSlash tagJ with
        | .error e => (acc, some e)
        | .ok tag =>
          match pyGetD output "name" (Json.str "") with
          | .error e => (acc, some e)
          | .ok name =>
            if (tag != "") && jTruthy name then
              let outs := dictInsert acc.1 tag name
              if jHashable name then ((outs, jdictInsert acc.2 name tag), none)
              else ((outs, acc.2), some PyErr.typeError)
            else (acc, none))
    | _ => (acc, none)

/-- For-loop of EversoloDevice._parse_outputs. -/
def parseOutputsLoop : List Json → (List (String × Json) × List (Json × String)) →
    (List (String × Json) × List (Json × String)) × Option PyErr
  | [], acc => (acc, none)
  | s :: rest, acc =>
    match parseOutputStep acc s with
    | (acc2, none) => parseOutputsLoop rest acc2
    | (acc2, some e) => (acc2, some e)

/-- EversoloDevice._parse_outputs (device.py lines 316 to 330). -/
def parse_outputs (input_output_state : Json)
    (old : List (String × Json) × List (Json × String)) :
    (List (String × Json) × List (Json × String)) × Option PyErr :=
  match pyGetD input_output_state "outputData" (Json.arr []) with
  | .error e => (old, some e)
  | .ok outJ =>
    match jIter outJ with
    | .error e => (([], []), some e)
    | .ok entries => parseOutputsLoop entries ([], [])

/-- Request issued by EversoloDevice.select_source or select_output: the tag
and index query parameters of the selection GET call. -/
structure SelectRequest where
  tag : String
  index : Nat
deriving DecidableEq, Repr

/-- EversoloDevice.select_source (device.py lines 609 to 625). The api
argument is the outcome of the network call on the path that reaches it; the
third component lists the selection requests actually issued. -/
def select_source (st : DeviceState) (source : String) (api : Except Unit Unit) :
    Bool × DeviceState × List SelectRequest :=
  match jdictGet st.source_tags (Json.str source) with
  | none => (false, st, [])
  | some tag =>
    if tag == "" then (false, st, [])
    else
      match listIndex (st.sources.map Prod.fst) tag with
      | none => (false, st, [])
      | some index =>
        match api with
        | .ok _ => (true, st, [{ tag := tag, index := index }])
        | .error _ => (false, st, [{ tag := tag, index := index }])

/-- EversoloDevice.select_output (device.py lines 627 to 643). -/
def select_output (st : DeviceState) (output : String) (api : Except Unit Unit) :
    Bool × DeviceState × List SelectRequest :=
  match jdictGet st.output_tags (Json.str output) with
  | none => (false, st, [])
  | some tag =>
    if tag == "" then (false, st, [])
    else
      match listIndex (st.outputs.map Prod.fst) tag with
      | none => (false, st, [])
      | some index =>
        match api with
        | .ok _ => (true, st, [{ tag := tag, index := index }])
        | .error _ => (false, st, [{ tag := tag, index := index }])

/-- Outcomes of the network fetches of one poll tick: the two core endpoint
fetches (which can raise) and the two brightness helpers (which catch their
own exceptions and return None on failure, device.py lines 702 to 741). -/
structure FetchOutcome where
  getState : Except Unit Json
  getInputAndOutputList : Except Unit Json
  displayBrightness : Option Int
  knobBrightness : Option Int

/-- Brightness storage part of EversoloDevice.poll_device (lines 167 to 174):
each level is stored only when the helper returned a value. -/
def storeBrightness (st : DeviceState) (f : FetchOutcome) : DeviceState :=
  let st1 :=
    match f.displayBrightness with
    | some b => { st with state_data := { st.state_data with display_brightness := some b } }
    | none => st
  match f.knobBrightness with
  | some b => { st1 with state_data := { st1.state_data with knob_brightness := some b } }
  | none => st1

/-- Body of EversoloDevice.poll_device after both fetches succeeded (lines
160 to 174): store the raw snapshot, rebuild the catalogs when the
input-output payload is truthy, then store brightness. An exception raised
by a parser is caught by the try-except of poll_device, so the state mutated
up to the raise is kept and the later steps are skipped. -/
def pollCore (st1 : DeviceState) (ios : Json) (f : FetchOutcome) : DeviceState :=
  if jTruthy ios then
    let sd2 := { st1.state_data with input_output_state := some ios }
    let st2 := { st1 with state_data := sd2 }
    let srcRes := parse_sources ios (st2.sources, st2.source_tags)
    let st3 := { st2 with sources := srcRes.1.1, source_tags := srcRes.1.2 }
    match srcRes.2 with
    | some _ => st3
    | none =>
      let outRes := parse_outputs ios (st3.outputs, st3.output_tags)
      let st4 := { st3 with outputs := outRes.1.1, output_tags := outRes.1.2 }
      match outRes.2 with
      | some _ => st4
      | none => storeBrightness st4 f
  else storeBrightness st1 f

/-- EversoloDevice.poll_device (device.py lines 150 to 183): fetch transport
state then the input-output list; a raise in either fetch reaches the
try-except before anything is stored, so the state is returned unchanged.
Entity notification does not mutate the device state and is outside this
model. The result type shows that poll_device never raises to its caller. -/
def poll_device (st : DeviceState) (f : FetchOutcome) : DeviceState :=
  match f.getState with
  | .error _ => st
  | .ok music_state =>
    match f.getInputAndOutputList with
    | .error _ => st
    | .ok ios =>
      pollCore { st with state_data := { st.state_data with music_control_state := some music_state } } ios f

/-! IEEE-754 binary64 model, used where a claim is sensitive to the rounding
of the Python float expression int((current / max_volume) * 100) in
get_volume. A positive double is a dyadic pair (mantissa, exponent) with
value mantissa * 2 ^ exponent; operations round to nearest, ties to even, as
IEEE-754 requires for division and multiplication. The model covers the
normal range, which is ample for volume data. -/

/-- Fuel-driven base-2 logarithm on Nat (structural recursion so that the
kernel can evaluate it). -/
def natLog2go : Nat → Nat → Nat
  | 0, _ => 0
  | f + 1, n => if n ≤ 1 then 0 else natLog2go f (n / 2) + 1

/-- Floor of log2 n for n > 0. -/
def natLog2 (n : Nat) : Nat := natLog2go 200 n

/-- Round p / q (with q > 0) to the nearest natural number, ties to even. -/
def roundHalfEvenFrac (p q : Nat) : Nat :=
  let d := p / q
  let r := p % q
  if 2 * r < q then d else if q < 2 * r then d + 1 else if d % 2 = 0 then d else d + 1

/-- Floor of log2 (a / b) for positive a, b with a / b above 2 ^ (-120). -/
def fracExp (a b : Nat) : Int := (natLog2 (a * 2 ^ 120 / b) : Int) - 120

/-- Nearest binary64 value to the positive fraction a / b, as a dyadic pair:
scale the fraction into [2 ^ 52, 2 ^ 53) and round to nearest, ties to even. -/
def dblOfFrac (a b : Nat) : Nat × Int :=
  let e := fracExp a b
  let p := if 0 ≤ 52 - e then a * 2 ^ (52 - e).toNat else a
  let q := if 0 ≤ 52 - e then b else b * 2 ^ (e - 52).toNat
  (roundHalfEvenFrac p q, e - 52)

/-- Binary64 multiplication of a dyadic double by a small natural constant,
with correct rounding of the product. -/
def dblMulNat (d : Nat × Int) (k : Nat) : Nat × Int :=
  if 0 ≤ d.2 then dblOfFrac (d.1 * k * 2 ^ d.2.toNat) 1
  else dblOfFrac (d.1 * k) (2 ^ (-d.2).toNat)

/-- Python int() of a nonnegative dyadic double: truncation. -/
def dblTruncNat (d : Nat × Int) : Nat :=
  if 0 ≤ d.2 then d.1 * 2 ^ d.2.toNat else d.1 / 2 ^ (-d.2).toNat

/-- The volume expression of get_volume, int((current / max_volume) * 100),
evaluated with binary64 arithmetic exactly as CPython does: one correctly
rounded division, one correctly rounded multiplication by 100, then
truncation. -/
def pyFloatVolume (cur mx : Nat) : Nat := dblTruncNat (dblMulNat (dblOfFrac cur mx) 100)

/-- The volume percentage of get_volume under exact rational arithmetic. -/
def volumePct (c m : Nat) : Int := ratTrunc ((c : ℚ) / (m : ℚ) * 100)

/-! Well-typedness of a raw snapshot: each field the accessors touch either
is absent or has a type the code handles without raising. This is the
apparatus for the amended form of the robustness claim. -/

/-- Field check helper: a constraint on a field that also holds vacuously
when the field is absent. -/
def fieldOk (fields : List (String × Json)) (key : String) (p : Json → Bool) : Bool :=
  match objLookup fields key with
  | none => true
  | some v => p v

/-- Whether a JSON value is an object. -/
def jIsObj : Json → Bool
  | .obj _ => true
  | _ => false

/-- Whether a JSON value is numeric for Python arithmetic (int or bool). -/
def jNumLike : Json → Bool
  | .num _ => true
  | .bool _ => true
  | _ => false

/-- Numeric or null (null short-circuits the volume guards without raising). -/
def jNumLikeOrNull : Json → Bool
  | .null => true
  | j => jNumLike j

/-- Well-typed volumeData value: an object whose volume fields, if present,
are numeric or null. -/
def wtVolumeData : Json → Bool
  | .obj vfs => fieldOk vfs "currenttVolume" jNumLikeOrNull && fieldOk vfs "maxVolume" jNumLikeOrNull
  | _ => false

/-- Well-typed everSoloPlayInfo value: an object whose audio-info field, if
present, is an object. -/
def wtEpi : Json → Bool
  | .obj efs => fieldOk efs "everSoloPlayAudioInfo" jIsObj
  | _ => false

/-- Well-typed transport snapshot for the derived-state accessors. -/
def wellTypedMusic : Option Json → Bool
  | none => true
  | some (.obj fs) =>
      fieldOk fs "volumeData" wtVolumeData &&
      fieldOk fs "everSoloPlayInfo" wtEpi &&
      fieldOk fs "playingMusic" jIsObj &&
      fieldOk fs "duration" jNumLike &&
      fieldOk fs "position" jNumLike
  | some _ => false

/-- Well-typed input-output snapshot for get_current_source. -/
def wellTypedIos : Option Json → Bool
  | none => true
  | some (.obj fs) => fieldOk fs "inputIndex" jNumLike
  | some _ => false

/-- Well-typed device state: both stored snapshots are well typed. -/
def wellTypedState (st : DeviceState) : Bool :=
  wellTypedMusic st.state_data.music_control_state && wellTypedIos st.state_data.input_output_state

/-- Whether a Python call returned normally (ok) or raised (error). -/
def exOk {α : Type} : Except PyErr α → Bool
  | .ok _ => true
  | .error _ => false

/-! Projections of catalog entries, used to state the parser theorems. -/

/-- Tag a parser loop iteration would store for an entry: the slash-stripped
string tag, or the empty string where the code would skip or raise. -/
def entryTagOf (e : Json) : String :=
  match pyGetD e "tag" (Json.str "") with
  | .ok (Json.str t) => stripSlashes t
  | _ => ""

/-- Name value a parser loop iteration would store for an entry. -/
def entryNameOf (e : Json) : Json :=
  match pyGetD e "name" (Json.str "") with
  | .ok nm => nm
  | _ => Json.null

/-- Whether _parse_outputs retains an entry: its enable field is exactly the
boolean True, its slash-stripped tag is a non-empty string, and its name is
truthy (and hashable, so that the catalog write completes). -/
def keptOutput (e : Json) : Bool :=
  match pyGetD e "enable" Json.null, pyGetD e "tag" (Json.str ""), pyGetD e "name" (Json.str "") with
  | .ok (Json.bool true), .ok (Json.str t), .ok nm =>
      (stripSlashes t != "") && jTruthy nm && jHashable nm
  | _, _, _ => false

/-- Whether _parse_sources retains an entry: like keptOutput but with no
enable filter. -/
def keptSource (e : Json) : Bool :=
  match pyGetD e "tag" (Json.str ""), pyGetD e "name" (Json.str "") with
  | .ok (Json.str t), .ok nm =>
      (stripSlashes t != "") && jTruthy nm && jHashable nm
  | _, _ => false

/-! Concrete states for witnesses and counterexamples. -/

/-- Snapshot fixture with the given optional integer volume fields. -/
def volFields : Option Int → Option Int → List (String × Json)
  | some c, some m => [("currenttVolume", Json.num c), ("maxVolume", Json.num m)]
  | some c, none => [("currenttVolume", Json.num c)]
  | none, some m => [("maxVolume", Json.num m)]
  | none, none => []

/-- Device state whose snapshot holds exactly the given volume fields. -/
def mkVolState (c m : Option Int) : DeviceState :=
  { state_data := { music_control_state := some (Json.obj [("volumeData", Json.obj (volFields c m))]) } }

/-- State with malformed snapshots: both stored payloads are JSON null. -/
def badSnapshotState : DeviceState :=
  { state_data := { music_control_state := some Json.null, input_output_state := some Json.null } }

/-- State whose snapshot has a wrongly typed duration field. -/
def badDurationState : DeviceState :=
  { state_data := { music_control_state := some (Json.obj [("duration", Json.str "abc")]) } }

/-- Well-typed concrete snapshot used as the robustness witness. -/
def richState : DeviceState :=
  { state_data :=
    { music_control_state := some (Json.obj
        [("state", Json.num 3),
         ("volumeData", Json.obj [("currenttVolume", Json.num 30), ("maxVolume", Json.num 100), ("isMute", Json.bool false)]),
         ("playType", Json.num 5),
         ("playingMusic", Json.obj [("title", Json.str "Song"), ("artist", Json.str "Band")]),
         ("duration", Json.num 215000),
         ("position", Json.num 1000)]),
      input_output_state := some (Json.obj [("inputIndex", Json.num 0)]) },
    sources := [("XLR", Json.str "XLR In")],
    source_tags := [(Json.str "XLR In", "XLR")] }

/-- Transport snapshot fields of the streaming example. -/
def ponyFields : List (String × Json) :=
  [("playType", Json.num 5),
   ("playingMusic", Json.obj [("title", Json.str "Pink Pony Club"), ("artist", Json.str "Chappell Roan")])]

/-- Device state holding the streaming example snapshot. -/
def ponyState : DeviceState :=
  { state_data := { music_control_state := some (Json.obj ponyFields) } }

/-- Media info derived from the streaming example snapshot. -/
def ponyInfo : MediaInfo :=
  match get_media_info ponyState with
  | .ok mi => mi
  | .error _ => {}

/-- Snapshot fields with zero duration and zero position. -/
def zeroTimesFields : List (String × Json) :=
  [("duration", Json.num 0), ("position", Json.num 0)]

/-- Device state holding the zero-times snapshot. -/
def zeroTimesState : DeviceState :=
  { state_data := { music_control_state := some (Json.obj zeroTimesFields) } }

/-- Media info derived from the zero-times snapshot. -/
def zeroTimesInfo : MediaInfo :=
  match get_media_info zeroTimesState with
  | .ok mi => mi
  | .error _ => {}

/-- Device state whose snapshot is an empty object: no position field. -/
def emptyMusicState : DeviceState :=
  { state_data := { music_control_state := some (Json.obj []) } }

/-- Media info derived from the empty snapshot. -/
def emptyMusicInfo : MediaInfo :=
  match get_media_info emptyMusicState with
  | .ok mi => mi
  | .error _ => {}

/-- Input-output payload where two source entries share one name. -/
def dupNamePayload : Json :=
  Json.obj [("inputData", Json.arr
    [Json.obj [("tag", Json.str "A"), ("name", Json.str "X")],
     Json.obj [("tag", Json.str "B"), ("name", Json.str "X")]])]

/-- Fetch outcome whose second endpoint fetch raises. -/
def failSecondFetch : FetchOutcome :=
  { getState := .ok (Json.obj [("state", Json.num 3)]),
    getInputAndOutputList := .error (),
    displayBrightness := none,
    knobBrightness := none }

/-- Nonempty device state used by the poll-failure witness. -/
def pollWitState : DeviceState :=
  { state_data := { music_control_state := some (Json.obj [("state", Json.num 0)]) },
    sources := [("USB", Json.str "USB In")],
    source_tags := [(Json.str "USB In", "USB")] }

/-- Play type discriminant of a transport snapshot (None when absent). -/
def playTypeOf (fs : List (String × Json)) : Json :=
  (objLookup fs "playType").getD Json.null

/-- Field of the local-playback substructure
everSoloPlayInfo.everSoloPlayAudioInfo of a snapshot, as the code reads it
with defaulted gets. -/
def audValOf (fs : List (String × Json)) (key : String) : Json :=
  match (objLookup fs "everSoloPlayInfo").getD (Json.obj []) with
  | .obj efs =>
    match (objLookup efs "everSoloPlayAudioInfo").getD (Json.obj []) with
    | .obj afs => (objLookup afs key).getD Json.null
    | _ => Json.null
  | _ => Json.null

/-- Field of the streaming substructure playingMusic of a snapshot. -/
def pmValOf (fs : List (String × Json)) (key : String) : Json :=
  match (objLookup fs "playingMusic").getD (Json.obj []) with
  | .obj pfs => (objLookup pfs key).getD Json.null
  | _ => Json.null

/-- Output entry of the worked example with the integer enable flag. -/
def usbIntEntry : Json :=
  Json.obj [("enable", Json.num 1), ("tag", Json.str "USB"), ("name", Json.str "USB Out")]

/-- Output entry of the worked example with the boolean enable flag. -/
def rcaBoolEntry : Json :=
  Json.obj [("enable", Json.bool true), ("tag", Json.str "RCA"), ("name", Json.str "RCA Out")]

/-- Input-output payload holding the two example output entries. -/
def exampleOutputsPayload : Json :=
  Json.obj [("outputData", Json.arr [usbIntEntry, rcaBoolEntry])]

/-- Device state built from freshly parsed source catalogs and a reported
input selection index. -/
def mkCatalogState (cat : List (String × Json) × List (Json × String)) (idx : Json) : DeviceState :=
  { state_data := { input_output_state := some (Json.obj [("inputIndex", idx)]) },
    sources := cat.1,
    source_tags := cat.2 }

/-- Device state built from freshly parsed output catalogs and a reported
output selection index. -/
def mkOutCatalogState (cat : List (String × Json) × List (Json × String)) (idx : Json) : DeviceState :=
  { state_data := { input_output_state := some (Json.obj [("outputIndex", idx)]) },
    outputs := cat.1,
    output_tags := cat.2 }

/-- Input-output payload of the catalog witness: two sources and two enabled
outputs, all with pairwise distinct tags and names. -/
def catalogExamplePayload : Json :=
  Json.obj [("inputData", Json.arr
    [Json.obj [("tag", Json.str "XLR"), ("name", Json.str "XLR In")],
     Json.obj [("tag", Json.str "USB"), ("name", Json.str "USB In")]]),
   ("outputData", Json.arr
    [Json.obj [("enable", Json.bool true), ("tag", Json.str "SPDIF"), ("name", Json.str "SPDIF Out")],
     Json.obj [("enable", Json.bool true), ("tag", Json.str "HDMI"), ("name", Json.str "HDMI Out")]])]

/-- Source catalogs produced from the catalog witness payload. -/
def srcExampleCat : List (String × Json) × List (Json × String) :=
  ([("XLR", Json.str "XLR In"), ("USB", Json.str "USB In")],
   [(Json.str "XLR In", "XLR"), (Json.str "USB In", "USB")])

/-- Output catalogs produced from the catalog witness payload. -/
def outExampleCat : List (String × Json) × List (Json × String) :=
  ([("SPDIF", Json.str "SPDIF Out"), ("HDMI", Json.str "HDMI Out")],
   [(Json.str "SPDIF Out", "SPDIF"), (Json.str "HDMI Out", "HDMI")])

/-! Helper lemmas about the Except monad and the dict model. -/

/-- Bind after a normal return. -/
@[simp] theorem exc_bind_ok {α β : Type} (a : α) (f : α → Except PyErr β) :
    (Except.ok a : Except PyErr α) >>= f = f a := rfl

/-- Bind after a raise propagates the exception. -/
@[simp] theorem exc_bind_error {α β : Type} (e : PyErr) (f : α → Except PyErr β) :
    (Except.error e : Except PyErr α) >>= f = Except.error e := rfl

/-- Pure is a normal return. -/
@[simp] theorem exc_pure_eq_ok {α : Type} (a : α) :
    (pure a : Except PyErr α) = Except.ok a := rfl

/-- Map over a normal return. -/
@[simp] theorem exc_map_ok {α β : Type} (a : α) (f : α → β) :
    (Except.ok a : Except PyErr α).map f = Except.ok (f a) := rfl

/-- Map over a raise. -/
@[simp] theorem exc_map_error {α β : Type} (e : PyErr) (f : α → β) :
    (Except.error e : Except PyErr α).map f = Except.error e := rfl

/-- Dict read on an object never raises. -/
@[simp] theorem pyGetD_obj (fields : List (String × Json)) (key : String) (d : Json) :
    pyGetD (Json.obj fields) key d = .ok ((objLookup fields key).getD d) := rfl

/-- C1: a poll tick in which a fetch fails - the transport-state fetch, or
the input-output fetch after the first succeeded - leaves the stored raw
snapshot and all derived view values (get_volume, get_state,
get_current_source, get_media_info) unchanged; poll_device is a total
function into DeviceState, so it never raises to its caller. -/
theorem poll_fetch_failure_preserves_state (st : DeviceState) (f : FetchOutcome)
    (h : f.getState = .error () ∨ f.getInputAndOutputList = .error ()) :
    poll_device st f = st ∧
    get_volume (poll_device st f) = get_volume st ∧
    get_state (poll_device st f) = get_state st ∧
    get_current_source (poll_device st f) = get_current_source st ∧
    get_media_info (poll_device st f) = get_media_info st := by
  have hp : poll_device st f = st := by
    rcases h with h | h
    · unfold poll_device
      rw [h]
    · unfold poll_device
      rw [h]
      cases hgs : f.getState with
      | error e => rfl
      | ok ms => rfl
  exact ⟨hp, by rw [hp], by rw [hp], by rw [hp], by rw [hp]⟩

/-- Witness for C1: a state with a snapshot and a catalog, and a tick whose
second fetch raises, keep the state unchanged. -/
theorem poll_fetch_failure_preserves_state_witness :
    failSecondFetch.getState = .ok (Json.obj [("state", Json.num 3)]) ∧
    failSecondFetch.getInputAndOutputList = .error () ∧
    poll_device pollWitState failSecondFetch = pollWitState := by
  refine ⟨rfl, rfl, ?_⟩
  exact (poll_fetch_failure_preserves_state pollWitState failSecondFetch (Or.inr rfl)).1

/-- C8: selecting a source whose human name has no entry in the name-to-tag
catalog returns False, issues no selection request, and leaves the device
state unchanged. -/
theorem select_source_unknown_name (st : DeviceState) (source : String) (api : Except Unit Unit)
    (h : jdictGet st.source_tags (Json.str source) = none) :
    select_source st source api = (false, st, []) := by
  unfold select_source
  rw [h]

/-- Witness for C8: a catalog holding only the name USB In rejects the
unknown name Phono without a request. -/
theorem select_source_unknown_name_witness :
    jdictGet pollWitState.source_tags (Json.str "Phono") = none ∧
    select_source pollWitState "Phono" (.ok ()) = (false, pollWitState, []) :=
  ⟨rfl, select_source_unknown_name pollWitState "Phono" (.ok ()) rfl⟩
set_option maxRecDepth 8000 in
/-- C4 counterexample: with currenttVolume 2 and maxVolume 3 the code returns
66, but rounding to the nearest integer gives 67; the binary64 evaluation of
the same expression also yields 66, so the discrepancy is not a float
artifact. -/
theorem get_volume_not_round_counterexample :
    get_volume (mkVolState (some 2) (some 3)) = .ok (some 66) ∧
    round (((2 : Int) : ℚ) / ((3 : Int) : ℚ) * 100) = 67 ∧
    (66 : Int) ≠ 67 ∧
    pyFloatVolume 2 3 = 66 := by
  refine ⟨?_, ?_, by decide, by decide⟩
  · have h1 : get_volume (mkVolState (some 2) (some 3)) =
        .ok (some (ratTrunc (((2 : Int) : ℚ) / ((3 : Int) : ℚ) * 100))) := rfl
    have h2 : ratTrunc (((2 : Int) : ℚ) / ((3 : Int) : ℚ) * 100) = 66 := by
      norm_num [ratTrunc]
    rw [h1, h2]
  · rw [round_eq]
    norm_num

/-- Evaluation of get_volume on a snapshot holding both volume fields. -/
theorem get_volume_eval (cv mv : Int) :
    get_volume (mkVolState (some cv) (some mv)) =
      .ok (if 0 < mv then some (ratTrunc ((cv : ℚ) / (mv : ℚ) * 100)) else none) := by
  have hred : get_volume (mkVolState (some cv) (some mv)) =
      (if (mv != 0) = true then
        (do
          let gt0 ← jGt (Json.num mv) 0
          if gt0 then do
            let cq ← jToQ (Json.num cv)
            let mq ← jToQ (Json.num mv)
            pure (some (ratTrunc (cq / mq * 100)))
          else pure none)
      else pure (none : Option Int)) := rfl
  rw [hred]
  by_cases h0 : (0 : Int) < mv
  · have hne : (mv != 0) = true := by
      simp only [bne_iff_ne, ne_eq]
      omega
    rw [if_pos hne]
    have hgt : jGt (Json.num mv) 0 = .ok true := by
      simp [jGt, jAsInt, h0]
    rw [hgt]
    simp [jToQ, h0]
  · by_cases hz : mv = 0
    · subst hz
      simp
    · have hne : (mv != 0) = true := by
        simp only [bne_iff_ne, ne_eq]
        exact hz
      rw [if_pos hne]
      have hgt : jGt (Json.num mv) 0 = .ok false := by
        simp [jGt, jAsInt, h0]
      rw [hgt]
      simp [h0]

/-- C4 (amended): when both volume fields are present and numeric with
maxVolume > 0, get_volume returns the int() truncation of
(current / max) * 100 (floor for nonnegative values, not round-to-nearest);
when either field is absent or maxVolume is not > 0 it returns None. -/
theorem get_volume_formula (c m : Option Int) :
    get_volume (mkVolState c m) =
      .ok (match c, m with
           | some cv, some mv =>
               if 0 < mv then some (ratTrunc ((cv : ℚ) / (mv : ℚ) * 100)) else none
           | _, _ => none) := by
  cases c with
  | none =>
    cases m with
    | none => rfl
    | some mv => rfl
  | some cv =>
    cases m with
    | none => rfl
    | some mv => exact get_volume_eval cv mv

set_option maxRecDepth 8000 in
/-- C5 counterexample: for current 29 and max 100 the binary64 evaluation of
int((current / max) * 100) used by get_volume yields 28, while
floor((29 / 100) * 100) = 29, so the computed percentage is not always the
exact floor. -/
theorem float_volume_not_floor_counterexample :
    pyFloatVolume 29 100 = 28 ∧
    ⌊((29 : ℚ) / (100 : ℚ)) * 100⌋ = 29 ∧
    (28 : Int) ≠ 29 := by
  refine ⟨by decide, by norm_num, by decide⟩

/-- C5 (amended): under exact rational arithmetic the computed percentage
equals floor((current / max) * 100) for all nonnegative pairs with max > 0,
and lies in [0, 100] whenever current <= max; the binary64 evaluation the
code actually performs can return one less than that floor (see the
counterexample), so the floor identity holds of the idealized arithmetic
only. -/
theorem volume_pct_floor_and_range (c m : Nat) (h : 0 < m) :
    get_volume (mkVolState (some (c : Int)) (some (m : Int))) = .ok (some (volumePct c m)) ∧
    volumePct c m = ⌊((c : ℚ) / (m : ℚ)) * 100⌋ ∧
    (c ≤ m → 0 ≤ volumePct c m ∧ volumePct c m ≤ 100) := by
  have hm : (0 : Int) < (m : Int) := by exact_mod_cast h
  have hmq : (0 : ℚ) < (m : ℚ) := by exact_mod_cast h
  have hq : (0 : ℚ) ≤ (c : ℚ) / (m : ℚ) * 100 := by positivity
  have hfloor : volumePct c m = ⌊((c : ℚ) / (m : ℚ)) * 100⌋ := by
    unfold volumePct ratTrunc
    rw [if_neg (by exact not_lt.mpr hq)]
  refine ⟨?_, hfloor, ?_⟩
  · rw [get_volume_eval]
    rw [if_pos hm]
    unfold volumePct
    norm_num
  · intro hcm
    constructor
    · rw [hfloor]
      exact Int.floor_nonneg.mpr hq
    · rw [hfloor]
      have hle : (c : ℚ) / (m : ℚ) * 100 ≤ 100 := by
        have : (c : ℚ) / (m : ℚ) ≤ 1 := by
          rw [div_le_one hmq]
          exact_mod_cast hcm
        nlinarith
      calc ⌊((c : ℚ) / (m : ℚ)) * 100⌋ ≤ ⌊(100 : ℚ)⌋ := Int.floor_le_floor hle
        _ = 100 := by norm_num

/-- Witness for C5 (amended): current 1 of max 2 gives percentage 50, equal
to the floor and inside [0, 100]. -/
theorem volume_pct_floor_and_range_witness :
    (0 < 2) ∧ volumePct 1 2 = ⌊((1 : ℚ) / (2 : ℚ)) * 100⌋ ∧
    (0 ≤ volumePct 1 2 ∧ volumePct 1 2 ≤ 100) := by
  refine ⟨by decide, (volume_pct_floor_and_range 1 2 (by decide)).2.1, ?_⟩
  exact (volume_pct_floor_and_range 1 2 (by decide)).2.2 (by decide)
/-- C10: when the transport snapshot has no position field at all, the
default 0 passes the >= 0 check and get_media_info reports a present
position of 0 seconds, indistinguishable from a track at its start. -/
theorem absent_position_defaults_to_zero (st : DeviceState) (fs : List (String × Json)) (mi : MediaInfo)
    (hms : st.state_data.music_control_state = some (Json.obj fs))
    (hpos : objLookup fs "position" = none)
    (hok : get_media_info st = .ok mi) :
    mi.position = some 0 := by
  unfold get_media_info at hok
  rw [hms] at hok
  simp only [Option.getD_some] at hok
  cases hb : mediaBase (Json.obj fs) with
  | error e => rw [hb] at hok; simp at hok
  | ok base =>
    rw [hb] at hok
    simp only [exc_bind_ok, pyGetD_obj] at hok
    cases hd : jGt ((objLookup fs "duration").getD (Json.num 0)) 0 with
    | error e => rw [hd] at hok; simp at hok
    | ok dp =>
      rw [hd] at hok
      simp only [exc_bind_ok] at hok
      rw [hpos] at hok
      simp only [Option.getD_none] at hok
      rw [show jGe (Json.num 0) 0 = Except.ok true from rfl] at hok
      rw [show jToQ (Json.num 0) = Except.ok ((0 : Int) : ℚ) from rfl] at hok
      cases dp with
      | false =>
        simp only [Bool.false_eq_true, if_false, exc_pure_eq_ok, exc_bind_ok, if_true] at hok
        simp only [Except.ok.injEq] at hok
        subst hok
        norm_num
      | true =>
        simp only [if_true, exc_pure_eq_ok] at hok
        cases ht : jToQ ((objLookup fs "duration").getD (Json.num 0)) with
        | error e => rw [ht] at hok; simp at hok
        | ok d =>
          rw [ht] at hok
          simp only [exc_bind_ok, exc_pure_eq_ok, if_true] at hok
          simp only [Except.ok.injEq] at hok
          subst hok
          norm_num
/-- Splitting a successful bind into a successful step and continuation. -/
theorem exc_bind_eq_ok {α β : Type} {x : Except PyErr α} {f : α → Except PyErr β} {b : β}
    (h : (x >>= f) = .ok b) : ∃ a, x = .ok a ∧ f a = .ok b := by
  cases x with
  | error e => simp at h
  | ok a => exact ⟨a, rfl, h⟩

/-- Every branch of the playType dispatch leaves duration and position
unset; they are only filled by the common tail of get_media_info. -/
theorem media_base_times_none (ms : Json) (base : MediaInfo) (h : mediaBase ms = .ok base) :
    base.duration = none ∧ base.position = none := by
  cases ms with
  | null => simp [mediaBase, pyGetD] at h
  | bool b => simp [mediaBase, pyGetD] at h
  | num n => simp [mediaBase, pyGetD] at h
  | str s => simp [mediaBase, pyGetD] at h
  | arr xs => simp [mediaBase, pyGetD] at h
  | obj fs =>
    unfold mediaBase at h
    simp only [pyGetD_obj, exc_bind_ok] at h
    split at h
    · repeat
        obtain ⟨_, _, h⟩ := exc_bind_eq_ok h
      simp only [exc_pure_eq_ok, Except.ok.injEq] at h
      subst h
      exact ⟨rfl, rfl⟩
    · split at h
      · repeat
          obtain ⟨_, _, h⟩ := exc_bind_eq_ok h
        simp only [exc_pure_eq_ok, Except.ok.injEq] at h
        subst h
        exact ⟨rfl, rfl⟩
      · repeat
          obtain ⟨_, _, h⟩ := exc_bind_eq_ok h
        simp only [exc_pure_eq_ok, Except.ok.injEq] at h
        subst h
        exact ⟨rfl, rfl⟩

/-- C7: zero is handled asymmetrically in the time fields of
get_media_info: a raw duration of 0 yields an absent derived duration,
while a raw position of 0 yields a present derived position of value 0. -/
theorem zero_duration_absent_zero_position_present (st : DeviceState) (fs : List (String × Json)) (mi : MediaInfo)
    (hms : st.state_data.music_control_state = some (Json.obj fs))
    (hdur : objLookup fs "duration" = some (Json.num 0))
    (hpos : objLookup fs "position" = some (Json.num 0))
    (hok : get_media_info st = .ok mi) :
    mi.duration = none ∧ mi.position = some 0 := by
  unfold get_media_info at hok
  rw [hms] at hok
  simp only [Option.getD_some] at hok
  cases hb : mediaBase (Json.obj fs) with
  | error e => rw [hb] at hok; simp at hok
  | ok base =>
    have hbt := media_base_times_none (Json.obj fs) base hb
    rw [hb] at hok
    simp only [exc_bind_ok, pyGetD_obj] at hok
    rw [hdur, hpos] at hok
    simp only [Option.getD_some] at hok
    rw [show jGt (Json.num 0) 0 = Except.ok false from rfl] at hok
    rw [show jGe (Json.num 0) 0 = Except.ok true from rfl] at hok
    rw [show jToQ (Json.num 0) = Except.ok ((0 : Int) : ℚ) from rfl] at hok
    simp only [exc_bind_ok, Bool.false_eq_true, if_false, exc_pure_eq_ok, if_true] at hok
    simp only [Except.ok.injEq] at hok
    subst hok
    refine ⟨hbt.1, ?_⟩
    norm_num

/-- Witness for C7: the concrete snapshot with duration 0 and position 0
derives an absent duration and a present zero position. -/
theorem zero_duration_witness :
    objLookup zeroTimesFields "duration" = some (Json.num 0) ∧
    objLookup zeroTimesFields "position" = some (Json.num 0) ∧
    get_media_info zeroTimesState = .ok zeroTimesInfo ∧
    zeroTimesInfo.duration = none ∧ zeroTimesInfo.position = some 0 := by
  have h := zero_duration_absent_zero_position_present zeroTimesState zeroTimesFields zeroTimesInfo
    rfl rfl rfl rfl
  exact ⟨rfl, rfl, rfl, h.1, h.2⟩

/-- Witness for C10: a snapshot that is an empty object has no position
field, yet the derived position is present with value 0. -/
theorem absent_position_witness :
    objLookup ([] : List (String × Json)) "position" = none ∧
    get_media_info emptyMusicState = .ok emptyMusicInfo ∧
    emptyMusicInfo.position = some 0 := by
  have h := absent_position_defaults_to_zero emptyMusicState [] emptyMusicInfo rfl rfl rfl
  exact ⟨rfl, rfl, h⟩
/-- A JSON value Python-equals at most one integer. -/
theorem jEqInt_unique {j : Json} {a b : Int} (ha : jEqInt j a = true) (hb : jEqInt j b = true) :
    a = b := by
  cases j with
  | num m => simp [jEqInt] at ha hb; omega
  | bool c => cases c <;> simp [jEqInt] at ha hb <;> omega
  | null => simp [jEqInt] at ha
  | str s => simp [jEqInt] at ha
  | arr xs => simp [jEqInt] at ha
  | obj fs => simp [jEqInt] at ha

/-- Characterization of audValOf from the successful gets of the code. -/
theorem audValOf_eq {fs : List (String × Json)} {aud v : Json} {key : String}
    (haud : pyGetD ((objLookup fs "everSoloPlayInfo").getD (Json.obj []))
        "everSoloPlayAudioInfo" (Json.obj []) = Except.ok aud)
    (hkey : pyGetD aud key Json.null = Except.ok v) :
    audValOf fs key = v := by
  cases hepi : (objLookup fs "everSoloPlayInfo").getD (Json.obj []) with
  | obj efs =>
    rw [hepi] at haud
    simp only [pyGetD_obj, Except.ok.injEq] at haud
    subst haud
    cases hval : (objLookup efs "everSoloPlayAudioInfo").getD (Json.obj []) with
    | obj afs =>
      rw [hval] at hkey
      simp only [pyGetD_obj, Except.ok.injEq] at hkey
      simp only [audValOf, hepi, hval]
      exact hkey
    | null => rw [hval] at hkey; simp [pyGetD] at hkey
    | bool b => rw [hval] at hkey; simp [pyGetD] at hkey
    | num n => rw [hval] at hkey; simp [pyGetD] at hkey
    | str s => rw [hval] at hkey; simp [pyGetD] at hkey
    | arr xs => rw [hval] at hkey; simp [pyGetD] at hkey
  | null => rw [hepi] at haud; simp [pyGetD] at haud
  | bool b => rw [hepi] at haud; simp [pyGetD] at haud
  | num n => rw [hepi] at haud; simp [pyGetD] at haud
  | str s => rw [hepi] at haud; simp [pyGetD] at haud
  | arr xs => rw [hepi] at haud; simp [pyGetD] at haud

/-- Characterization of pmValOf from the successful gets of the code. -/
theorem pmValOf_eq {fs : List (String × Json)} {v : Json} {key : String}
    (hkey : pyGetD ((objLookup fs "playingMusic").getD (Json.obj [])) key Json.null = Except.ok v) :
    pmValOf fs key = v := by
  unfold pmValOf
  cases hpm : (objLookup fs "playingMusic").getD (Json.obj []) with
  | obj pfs =>
    rw [hpm] at hkey
    simp only [pyGetD_obj, Except.ok.injEq] at hkey
    exact hkey
  | null => rw [hpm] at hkey; simp [pyGetD] at hkey
  | bool b => rw [hpm] at hkey; simp [pyGetD] at hkey
  | num n => rw [hpm] at hkey; simp [pyGetD] at hkey
  | str s => rw [hpm] at hkey; simp [pyGetD] at hkey
  | arr xs => rw [hpm] at hkey; simp [pyGetD] at hkey

/-- Dispatch behavior of the playType branch of get_media_info. -/
theorem media_base_dispatch (fs : List (String × Json)) (base : MediaInfo)
    (h : mediaBase (Json.obj fs) = .ok base) :
    ((jEqInt (playTypeOf fs) 4 || jEqInt (playTypeOf fs) 6 || jEqInt (playTypeOf fs) 7) = true →
        base.title = audValOf fs "songName" ∧ base.artist = audValOf fs "artistName" ∧
        base.album = audValOf fs "albumName") ∧
    (jEqInt (playTypeOf fs) 5 = true →
        base.title = pmValOf fs "title" ∧ base.artist = pmValOf fs "artist" ∧
        base.album = pmValOf fs "album") ∧
    ((jEqInt (playTypeOf fs) 4 || jEqInt (playTypeOf fs) 6 || jEqInt (playTypeOf fs) 7) = false →
      jEqInt (playTypeOf fs) 5 = false →
        base.title = pyOr (pmValOf fs "title") (audValOf fs "songName") ∧
        base.artist = pyOr (pmValOf fs "artist") (audValOf fs "artistName") ∧
        base.album = pyOr (pmValOf fs "album") (audValOf fs "albumName")) := by
  unfold mediaBase at h
  simp only [pyGetD_obj, exc_bind_ok] at h
  rw [show (objLookup fs "playType").getD Json.null = playTypeOf fs from rfl] at h
  split at h
  · next hc =>
    obtain ⟨aud, ha, h⟩ := exc_bind_eq_ok h
    obtain ⟨v1, h1, h⟩ := exc_bind_eq_ok h
    obtain ⟨v2, h2, h⟩ := exc_bind_eq_ok h
    obtain ⟨v3, h3, h⟩ := exc_bind_eq_ok h
    obtain ⟨_, _, h⟩ := exc_bind_eq_ok h
    obtain ⟨_, _, h⟩ := exc_bind_eq_ok h
    obtain ⟨_, _, h⟩ := exc_bind_eq_ok h
    obtain ⟨_, _, h⟩ := exc_bind_eq_ok h
    obtain ⟨_, _, h⟩ := exc_bind_eq_ok h
    obtain ⟨_, _, h⟩ := exc_bind_eq_ok h
    simp only [exc_pure_eq_ok, Except.ok.injEq] at h
    subst h
    refine ⟨fun _ => ⟨(audValOf_eq ha h1).symm, (audValOf_eq ha h2).symm, (audValOf_eq ha h3).symm⟩,
      fun h5 => ?_, fun hno _ => ?_⟩
    · simp only [Bool.or_eq_true] at hc
      rcases hc with (h4 | h6) | h7
      · exact absurd (jEqInt_unique h4 h5) (by decide)
      · exact absurd (jEqInt_unique h6 h5) (by decide)
      · exact absurd (jEqInt_unique h7 h5) (by decide)
    · rw [hc] at hno
      simp at hno
  · next hc1 =>
    split at h
    · next hc5 =>
      obtain ⟨v1, h1, h⟩ := exc_bind_eq_ok h
      obtain ⟨v2, h2, h⟩ := exc_bind_eq_ok h
      obtain ⟨v3, h3, h⟩ := exc_bind_eq_ok h
      obtain ⟨_, _, h⟩ := exc_bind_eq_ok h
      obtain ⟨_, _, h⟩ := exc_bind_eq_ok h
      obtain ⟨_, _, h⟩ := exc_bind_eq_ok h
      obtain ⟨_, _, h⟩ := exc_bind_eq_ok h
      obtain ⟨_, _, h⟩ := exc_bind_eq_ok h
      obtain ⟨_, _, h⟩ := exc_bind_eq_ok h
      simp only [exc_pure_eq_ok, Except.ok.injEq] at h
      subst h
      refine ⟨fun hc => absurd hc hc1,
        fun _ => ⟨(pmValOf_eq h1).symm, (pmValOf_eq h2).symm, (pmValOf_eq h3).symm⟩,
        fun _ h5f => ?_⟩
      · rw [hc5] at h5f
        simp at h5f
    · next hc5 =>
      obtain ⟨aud, ha, h⟩ := exc_bind_eq_ok h
      obtain ⟨p1, hp1, h⟩ := exc_bind_eq_ok h
      obtain ⟨a1, ha1, h⟩ := exc_bind_eq_ok h
      obtain ⟨p2, hp2, h⟩ := exc_bind_eq_ok h
      obtain ⟨a2, ha2, h⟩ := exc_bind_eq_ok h
      obtain ⟨p3, hp3, h⟩ := exc_bind_eq_ok h
      obtain ⟨a3, ha3, h⟩ := exc_bind_eq_ok h
      obtain ⟨_, _, h⟩ := exc_bind_eq_ok h
      obtain ⟨_, _, h⟩ := exc_bind_eq_ok h
      obtain ⟨_, _, h⟩ := exc_bind_eq_ok h
      obtain ⟨_, _, h⟩ := exc_bind_eq_ok h
      obtain ⟨_, _, h⟩ := exc_bind_eq_ok h
      obtain ⟨_, _, h⟩ := exc_bind_eq_ok h
      simp only [exc_pure_eq_ok, Except.ok.injEq] at h
      subst h
      refine ⟨fun hc => absurd hc hc1, fun hc => absurd hc hc5, fun _ _ => ⟨?_, ?_, ?_⟩⟩
      · rw [pmValOf_eq hp1, audValOf_eq ha ha1]
      · rw [pmValOf_eq hp2, audValOf_eq ha ha2]
      · rw [pmValOf_eq hp3, audValOf_eq ha ha3]

/-- C6: get_media_info dispatches on playType: 4, 6 and 7 read title, artist
and album from the local substructure everSoloPlayInfo.everSoloPlayAudioInfo;
5 reads them from the streaming substructure playingMusic; for any other
value, including an absent playType, each field prefers the truthy value of
playingMusic and falls back to the local substructure. -/
theorem media_info_play_type_dispatch (st : DeviceState) (fs : List (String × Json)) (mi : MediaInfo)
    (hms : st.state_data.music_control_state = some (Json.obj fs))
    (hok : get_media_info st = .ok mi) :
    ((jEqInt (playTypeOf fs) 4 || jEqInt (playTypeOf fs) 6 || jEqInt (playTypeOf fs) 7) = true →
        mi.title = audValOf fs "songName" ∧ mi.artist = audValOf fs "artistName" ∧
        mi.album = audValOf fs "albumName") ∧
    (jEqInt (playTypeOf fs) 5 = true →
        mi.title = pmValOf fs "title" ∧ mi.artist = pmValOf fs "artist" ∧
        mi.album = pmValOf fs "album") ∧
    ((jEqInt (playTypeOf fs) 4 || jEqInt (playTypeOf fs) 6 || jEqInt (playTypeOf fs) 7) = false →
      jEqInt (playTypeOf fs) 5 = false →
        mi.title = pyOr (pmValOf fs "title") (audValOf fs "songName") ∧
        mi.artist = pyOr (pmValOf fs "artist") (audValOf fs "artistName") ∧
        mi.album = pyOr (pmValOf fs "album") (audValOf fs "albumName")) := by
  have hbase : ∃ base, mediaBase (Json.obj fs) = .ok base ∧
      mi.title = base.title ∧ mi.artist = base.artist ∧ mi.album = base.album := by
    unfold get_media_info at hok
    rw [hms] at hok
    simp only [Option.getD_some] at hok
    obtain ⟨base, hb, hok⟩ := exc_bind_eq_ok hok
    refine ⟨base, hb, ?_⟩
    simp only [pyGetD_obj, exc_bind_ok] at hok
    obtain ⟨dp, hd, hok⟩ := exc_bind_eq_ok hok
    cases dp with
    | false =>
      simp only [Bool.false_eq_true, if_false, exc_pure_eq_ok, exc_bind_ok] at hok
      obtain ⟨pp, hp, hok⟩ := exc_bind_eq_ok hok
      cases pp with
      | false =>
        simp only [Bool.false_eq_true, if_false, exc_pure_eq_ok, Except.ok.injEq] at hok
        subst hok
        exact ⟨rfl, rfl, rfl⟩
      | true =>
        simp only [if_true] at hok
        obtain ⟨p, hpq, hok⟩ := exc_bind_eq_ok hok
        simp only [exc_pure_eq_ok, Except.ok.injEq] at hok
        subst hok
        exact ⟨rfl, rfl, rfl⟩
    | true =>
      simp only [if_true] at hok
      obtain ⟨d, hdq, hok⟩ := exc_bind_eq_ok hok
      simp only [exc_pure_eq_ok, exc_bind_ok] at hok
      obtain ⟨pp, hp, hok⟩ := exc_bind_eq_ok hok
      cases pp with
      | false =>
        simp only [Bool.false_eq_true, if_false, exc_pure_eq_ok, Except.ok.injEq] at hok
        subst hok
        exact ⟨rfl, rfl, rfl⟩
      | true =>
        simp only [if_true] at hok
        obtain ⟨p, hpq, hok⟩ := exc_bind_eq_ok hok
        simp only [exc_pure_eq_ok, Except.ok.injEq] at hok
        subst hok
        exact ⟨rfl, rfl, rfl⟩
  obtain ⟨base, hb, ht, har, hal⟩ := hbase
  have hd := media_base_dispatch fs base hb
  refine ⟨fun hc => ?_, fun hc => ?_, fun hc1 hc5 => ?_⟩
  · obtain ⟨x1, x2, x3⟩ := hd.1 hc
    exact ⟨ht.trans x1, har.trans x2, hal.trans x3⟩
  · obtain ⟨x1, x2, x3⟩ := hd.2.1 hc
    exact ⟨ht.trans x1, har.trans x2, hal.trans x3⟩
  · obtain ⟨x1, x2, x3⟩ := hd.2.2 hc1 hc5
    exact ⟨ht.trans x1, har.trans x2, hal.trans x3⟩

/-- Witness for C6: a snapshot with playType 5 and playingMusic naming
Pink Pony Club by Chappell Roan derives exactly that title and artist. -/
theorem media_info_play_type_dispatch_witness :
    get_media_info ponyState = .ok ponyInfo ∧
    ponyInfo.title = Json.str "Pink Pony Club" ∧
    ponyInfo.artist = Json.str "Chappell Roan" := by
  have h := (media_info_play_type_dispatch ponyState ponyFields ponyInfo rfl rfl).2.1 rfl
  refine ⟨rfl, ?_, ?_⟩
  · rw [h.1]
    rfl
  · rw [h.2.1]
    rfl
/-- A branch on a decidable condition returns normally when both branches do. -/
theorem exOk_ite {α : Type} {c : Prop} [Decidable c] {x y : Except PyErr α}
    (hx : exOk x = true) (hy : exOk y = true) : exOk (if c then x else y) = true := by
  split
  · exact hx
  · exact hy

/-- A bind returns normally when the step and every continuation do. -/
theorem exOk_bind {α β : Type} {x : Except PyErr α} {f : α → Except PyErr β}
    (hx : exOk x = true) (hf : ∀ a, exOk (f a) = true) : exOk (x >>= f) = true := by
  cases x with
  | error e => simp [exOk] at hx
  | ok a => exact hf a

/-- Reading a present field through fieldOk yields its constraint. -/
theorem fieldOk_some {fs : List (String × Json)} {key : String} {p : Json → Bool} {v : Json}
    (h : fieldOk fs key p = true) (hv : objLookup fs key = some v) : p v = true := by
  unfold fieldOk at h
  rw [hv] at h
  exact h

/-- A field checked to be an object defaults to an object. -/
theorem obj_shape_of_fieldOk {fs : List (String × Json)} {key : String}
    (h : fieldOk fs key jIsObj = true) :
    ∃ g, (objLookup fs key).getD (Json.obj []) = Json.obj g := by
  cases hv : objLookup fs key with
  | none => exact ⟨[], rfl⟩
  | some v =>
    have hp := fieldOk_some h hv
    cases v with
    | obj g => exact ⟨g, rfl⟩
    | null => simp [jIsObj] at hp
    | bool b => simp [jIsObj] at hp
    | num n => simp [jIsObj] at hp
    | str s => simp [jIsObj] at hp
    | arr xs => simp [jIsObj] at hp

/-- A well-typed volumeData field defaults to an object with numeric-or-null
volume fields. -/
theorem vol_shape {fs : List (String × Json)}
    (h : fieldOk fs "volumeData" wtVolumeData = true) :
    ∃ vfs, (objLookup fs "volumeData").getD (Json.obj []) = Json.obj vfs ∧
      fieldOk vfs "currenttVolume" jNumLikeOrNull = true ∧
      fieldOk vfs "maxVolume" jNumLikeOrNull = true := by
  cases hv : objLookup fs "volumeData" with
  | none => exact ⟨[], rfl, rfl, rfl⟩
  | some v =>
    have hp := fieldOk_some h hv
    cases v with
    | obj vfs =>
      simp only [wtVolumeData, Bool.and_eq_true] at hp
      exact ⟨vfs, rfl, hp.1, hp.2⟩
    | null => simp [wtVolumeData] at hp
    | bool b => simp [wtVolumeData] at hp
    | num n => simp [wtVolumeData] at hp
    | str s => simp [wtVolumeData] at hp
    | arr xs => simp [wtVolumeData] at hp

/-- A well-typed everSoloPlayInfo field defaults to an object whose audio
info field defaults to an object. -/
theorem epi_shape {fs : List (String × Json)}
    (h : fieldOk fs "everSoloPlayInfo" wtEpi = true) :
    ∃ efs afs, (objLookup fs "everSoloPlayInfo").getD (Json.obj []) = Json.obj efs ∧
      (objLookup efs "everSoloPlayAudioInfo").getD (Json.obj []) = Json.obj afs := by
  cases hv : objLookup fs "everSoloPlayInfo" with
  | none => exact ⟨[], [], rfl, rfl⟩
  | some v =>
    have hp := fieldOk_some h hv
    cases v with
    | obj efs =>
      have hin : fieldOk efs "everSoloPlayAudioInfo" jIsObj = true := by
        simpa [wtEpi] using hp
      obtain ⟨afs, ha⟩ := obj_shape_of_fieldOk hin
      exact ⟨efs, afs, rfl, ha⟩
    | null => simp [wtEpi] at hp
    | bool b => simp [wtEpi] at hp
    | num n => simp [wtEpi] at hp
    | str s => simp [wtEpi] at hp
    | arr xs => simp [wtEpi] at hp

/-- A numeric JSON value coerces to an integer. -/
theorem jAsInt_ok {j : Json} (h : jNumLike j = true) : ∃ n, jAsInt j = .ok n := by
  cases j with
  | num n => exact ⟨n, rfl⟩
  | bool b => exact ⟨if b then 1 else 0, rfl⟩
  | null => simp [jNumLike] at h
  | str s => simp [jNumLike] at h
  | arr xs => simp [jNumLike] at h
  | obj fs => simp [jNumLike] at h

/-- A numeric JSON value coerces to a rational. -/
theorem jToQ_ok {j : Json} (h : jNumLike j = true) : ∃ q, jToQ j = .ok q := by
  cases j with
  | num n => exact ⟨(n : ℚ), rfl⟩
  | bool b => exact ⟨if b then 1 else 0, rfl⟩
  | null => simp [jNumLike] at h
  | str s => simp [jNumLike] at h
  | arr xs => simp [jNumLike] at h
  | obj fs => simp [jNumLike] at h

/-- Comparing a numeric JSON value with an int returns normally. -/
theorem jGt_ok {j : Json} (h : jNumLike j = true) (n : Int) : ∃ b, jGt j n = .ok b := by
  obtain ⟨m, hm⟩ := jAsInt_ok h
  exact ⟨decide (n < m), by simp [jGt, hm]⟩

/-- Comparing a numeric JSON value with an int returns normally. -/
theorem jGe_ok {j : Json} (h : jNumLike j = true) (n : Int) : ∃ b, jGe j n = .ok b := by
  obtain ⟨m, hm⟩ := jAsInt_ok h
  exact ⟨decide (n ≤ m), by simp [jGe, hm]⟩
/-- A well-typed optional transport snapshot defaults to an object whose
accessed fields satisfy the per-field constraints. -/
theorem wt_music_shape (o : Option Json) (h : wellTypedMusic o = true) :
    ∃ fs, o.getD (Json.obj []) = Json.obj fs ∧
      fieldOk fs "volumeData" wtVolumeData = true ∧
      fieldOk fs "everSoloPlayInfo" wtEpi = true ∧
      fieldOk fs "playingMusic" jIsObj = true ∧
      fieldOk fs "duration" jNumLike = true ∧
      fieldOk fs "position" jNumLike = true := by
  cases o with
  | none => exact ⟨[], rfl, rfl, rfl, rfl, rfl, rfl⟩
  | some j =>
    cases j with
    | obj fs =>
      simp only [wellTypedMusic, Bool.and_eq_true] at h
      obtain ⟨⟨⟨⟨h1, h2⟩, h3⟩, h4⟩, h5⟩ := h
      exact ⟨fs, rfl, h1, h2, h3, h4, h5⟩
    | null => simp [wellTypedMusic] at h
    | bool b => simp [wellTypedMusic] at h
    | num n => simp [wellTypedMusic] at h
    | str s => simp [wellTypedMusic] at h
    | arr xs => simp [wellTypedMusic] at h

/-- A well-typed optional input-output snapshot defaults to an object with a
numeric-or-absent inputIndex. -/
theorem wt_ios_shape (o : Option Json) (h : wellTypedIos o = true) :
    ∃ gfs, o.getD (Json.obj []) = Json.obj gfs ∧
      fieldOk gfs "inputIndex" jNumLike = true := by
  cases o with
  | none => exact ⟨[], rfl, rfl⟩
  | some j =>
    cases j with
    | obj gfs => exact ⟨gfs, rfl, by simpa [wellTypedIos] using h⟩
    | null => simp [wellTypedIos] at h
    | bool b => simp [wellTypedIos] at h
    | num n => simp [wellTypedIos] at h
    | str s => simp [wellTypedIos] at h
    | arr xs => simp [wellTypedIos] at h

/-- get_volume returns normally on a well-typed snapshot. -/
theorem get_volume_ok (st : DeviceState) (fs : List (String × Json))
    (hsh : st.state_data.music_control_state.getD (Json.obj []) = Json.obj fs)
    (hvol : fieldOk fs "volumeData" wtVolumeData = true) :
    exOk (get_volume st) = true := by
  unfold get_volume
  rw [hsh]
  simp only [pyGetD_obj, exc_bind_ok]
  obtain ⟨vfs, hV, hc, hx⟩ := vol_shape hvol
  rw [hV]
  simp only [pyGetD_obj, exc_bind_ok]
  cases hcv : objLookup vfs "currenttVolume" with
  | none => rfl
  | some cv =>
    have hcw := fieldOk_some hc hcv
    cases hmv : objLookup vfs "maxVolume" with
    | none =>
      cases cv with
      | null => rfl
      | num n => rfl
      | bool b => rfl
      | str s => simp [jNumLikeOrNull, jNumLike] at hcw
      | arr xs => simp [jNumLikeOrNull, jNumLike] at hcw
      | obj g => simp [jNumLikeOrNull, jNumLike] at hcw
    | some mv =>
      have hmw := fieldOk_some hx hmv
      cases cv <;> cases mv <;> simp only [Option.getD_some] <;>
        first
          | rfl
          | exact Bool.noConfusion hcw
          | exact Bool.noConfusion hmw
          | exact exOk_ite
              (exOk_bind rfl fun _ => exOk_ite
                (exOk_bind rfl fun _ => exOk_bind rfl fun _ => rfl) rfl)
              rfl

/-- get_muted returns normally on a well-typed snapshot. -/
theorem get_muted_ok (st : DeviceState) (fs : List (String × Json))
    (hsh : st.state_data.music_control_state.getD (Json.obj []) = Json.obj fs)
    (hvol : fieldOk fs "volumeData" wtVolumeData = true) :
    exOk (get_muted st) = true := by
  unfold get_muted
  rw [hsh]
  simp only [pyGetD_obj, exc_bind_ok]
  obtain ⟨vfs, hV, _, _⟩ := vol_shape hvol
  rw [hV]
  rfl

/-- get_state returns normally on a well-typed snapshot. -/
theorem get_state_ok (st : DeviceState) (fs : List (String × Json))
    (hsh : st.state_data.music_control_state.getD (Json.obj []) = Json.obj fs) :
    exOk (get_state st) = true := by
  unfold get_state
  rw [hsh]
  simp only [pyGetD_obj, exc_bind_ok]
  exact exOk_ite rfl (exOk_ite rfl (exOk_ite rfl rfl))

/-- get_current_source returns normally on a well-typed snapshot. -/
theorem get_current_source_ok (st : DeviceState) (gfs : List (String × Json))
    (hsh : st.state_data.input_output_state.getD (Json.obj []) = Json.obj gfs)
    (hidx : fieldOk gfs "inputIndex" jNumLike = true) :
    exOk (get_current_source st) = true := by
  unfold get_current_source
  rw [hsh]
  simp only [pyGetD_obj, exc_bind_ok]
  have hnum : jNumLike ((objLookup gfs "inputIndex").getD (Json.num (-1))) = true := by
    cases hv : objLookup gfs "inputIndex" with
    | none => rfl
    | some v =>
      have := fieldOk_some hidx hv
      simpa using this
  obtain ⟨n, hn⟩ := jAsInt_ok hnum
  apply exOk_bind
  · rw [hn]
    rfl
  · intro a
    apply exOk_ite
    · rfl
    · rfl

/-- The playType branch of get_media_info returns normally on a well-typed
snapshot. -/
theorem mediaBase_ok (fs : List (String × Json))
    (hepi : fieldOk fs "everSoloPlayInfo" wtEpi = true)
    (hpm : fieldOk fs "playingMusic" jIsObj = true) :
    exOk (mediaBase (Json.obj fs)) = true := by
  obtain ⟨efs, afs, hE, hA⟩ := epi_shape hepi
  obtain ⟨pfs, hP⟩ := obj_shape_of_fieldOk hpm
  unfold mediaBase
  simp only [pyGetD_obj, exc_bind_ok]
  apply exOk_ite
  · rw [hE]
    simp only [pyGetD_obj, exc_bind_ok]
    rw [hA]
    simp only [pyGetD_obj, exc_bind_ok]
    rfl
  · apply exOk_ite
    · rw [hP]
      simp only [pyGetD_obj, exc_bind_ok]
      rfl
    · rw [hE]
      simp only [pyGetD_obj, exc_bind_ok]
      rw [hA]
      simp only [pyGetD_obj, exc_bind_ok]
      rw [hP]
      simp only [pyGetD_obj, exc_bind_ok]
      rfl

/-- get_media_info returns normally on a well-typed snapshot. -/
theorem get_media_info_ok (st : DeviceState) (fs : List (String × Json))
    (hsh : st.state_data.music_control_state.getD (Json.obj []) = Json.obj fs)
    (hepi : fieldOk fs "everSoloPlayInfo" wtEpi = true)
    (hpm : fieldOk fs "playingMusic" jIsObj = true)
    (hdur : fieldOk fs "duration" jNumLike = true)
    (hpos : fieldOk fs "position" jNumLike = true) :
    exOk (get_media_info st) = true := by
  unfold get_media_info
  rw [hsh]
  simp only [pyGetD_obj, exc_bind_ok]
  have hdnum : jNumLike ((objLookup fs "duration").getD (Json.num 0)) = true := by
    cases hv : objLookup fs "duration" with
    | none => rfl
    | some v => simpa using fieldOk_some hdur hv
  have hpnum : jNumLike ((objLookup fs "position").getD (Json.num 0)) = true := by
    cases hv : objLookup fs "position" with
    | none => rfl
    | some v => simpa using fieldOk_some hpos hv
  obtain ⟨bd, hbd⟩ := jGt_ok hdnum 0
  obtain ⟨qd, hqd⟩ := jToQ_ok hdnum
  obtain ⟨bp, hbp⟩ := jGe_ok hpnum 0
  obtain ⟨qp, hqp⟩ := jToQ_ok hpnum
  have e1 : exOk (jGt ((objLookup fs "duration").getD (Json.num 0)) 0) = true := by
    rw [hbd]; rfl
  have e2 : exOk (jToQ ((objLookup fs "duration").getD (Json.num 0))) = true := by
    rw [hqd]; rfl
  have e3 : exOk (jGe ((objLookup fs "position").getD (Json.num 0)) 0) = true := by
    rw [hbp]; rfl
  have e4 : exOk (jToQ ((objLookup fs "position").getD (Json.num 0))) = true := by
    rw [hqp]; rfl
  apply exOk_bind
  · exact mediaBase_ok fs hepi hpm
  · intro base
    exact exOk_bind e1 fun _ => exOk_ite
      (exOk_bind e2 fun _ => exOk_bind rfl fun _ => exOk_bind e3 fun _ =>
        exOk_ite (exOk_bind e4 fun _ => rfl) rfl)
      (exOk_bind rfl fun _ => exOk_bind e3 fun _ =>
        exOk_ite (exOk_bind e4 fun _ => rfl) rfl)

/-- C2 counterexample: the accessors can raise on malformed snapshots: a
stored null payload makes all five raise AttributeError (None has no .get),
and a string duration makes get_media_info raise TypeError, contrary to the
claim that malformed fields are always treated as absence. -/
theorem accessors_raise_on_malformed :
    get_volume badSnapshotState = .error PyErr.attributeError ∧
    get_muted badSnapshotState = .error PyErr.attributeError ∧
    get_state badSnapshotState = .error PyErr.attributeError ∧
    get_current_source badSnapshotState = .error PyErr.attributeError ∧
    get_media_info badSnapshotState = .error PyErr.attributeError ∧
    get_media_info badDurationState = .error PyErr.typeError :=
  ⟨rfl, rfl, rfl, rfl, rfl, rfl⟩

/-- C2 (amended): on snapshots whose accessed fields, where present, carry
the types the code expects (objects for volumeData, everSoloPlayInfo and its
audio info, playingMusic and the input-output payload; numeric or null
volume fields; numeric duration, position and inputIndex), the accessors
get_volume, get_muted, get_state, get_current_source and get_media_info all
return a value and never raise; absent fields are treated as absence. A
wrongly typed field, such as a null payload or a string duration, can make
them raise (see the counterexample). -/
theorem accessors_total_on_well_typed (st : DeviceState) (h : wellTypedState st = true) :
    exOk (get_volume st) = true ∧ exOk (get_muted st) = true ∧
    exOk (get_state st) = true ∧ exOk (get_current_source st) = true ∧
    exOk (get_media_info st) = true := by
  unfold wellTypedState at h
  simp only [Bool.and_eq_true] at h
  obtain ⟨hm, hi⟩ := h
  obtain ⟨fs, hsh, hvol, hepi, hpm, hdur, hpos⟩ := wt_music_shape _ hm
  obtain ⟨gfs, hgsh, hidx⟩ := wt_ios_shape _ hi
  exact ⟨get_volume_ok st fs hsh hvol, get_muted_ok st fs hsh hvol, get_state_ok st fs hsh,
    get_current_source_ok st gfs hgsh hidx, get_media_info_ok st fs hsh hepi hpm hdur hpos⟩

/-- Witness for C2 (amended): a concrete well-typed snapshot on which all
five accessors return normally. -/
theorem accessors_total_on_well_typed_witness :
    wellTypedState richState = true ∧
    exOk (get_volume richState) = true ∧ exOk (get_muted richState) = true ∧
    exOk (get_state richState) = true ∧ exOk (get_current_source richState) = true ∧
    exOk (get_media_info richState) = true := by
  have h := accessors_total_on_well_typed richState rfl
  exact ⟨rfl, h.1, h.2.1, h.2.2.1, h.2.2.2.1, h.2.2.2.2⟩
/-- Reading a dict after a write: the written key returns the new value, any
other key is unaffected. -/
theorem dictGet_dictInsert {α : Type} (d : List (String × α)) (k : String) (v : α) (t : String) :
    dictGet (dictInsert d k v) t = if t = k then some v else dictGet d t := by
  induction d with
  | nil =>
    simp only [dictInsert, dictGet, beq_iff_eq]
    by_cases h : t = k
    · subst h
      simp
    · rw [if_neg (fun hh => h hh.symm), if_neg h]
  | cons p rest ih =>
    simp only [dictInsert, beq_iff_eq]
    by_cases hk : p.1 = k
    · rw [if_pos hk]
      simp only [dictGet, beq_iff_eq]
      by_cases ht : t = k
      · subst ht
        simp
      · rw [if_neg (fun hh => ht hh.symm), if_neg ht,
          if_neg (fun hh : p.1 = t => ht (hh.symm.trans hk))]
    · rw [if_neg hk]
      simp only [dictGet, beq_iff_eq]
      by_cases hp : p.1 = t
      · rw [if_pos hp, if_neg (fun hh : t = k => hk (hp.trans hh)), if_pos hp]
      · rw [if_neg hp, if_neg hp, ih]

/-- Successful slash stripping forces a string input. -/
theorem jReplaceSlash_ok {j : Json} {s : String} (h : jReplaceSlash j = .ok s) :
    ∃ s0, j = Json.str s0 ∧ s = stripSlashes s0 := by
  cases j with
  | str s0 =>
    simp only [jReplaceSlash, Except.ok.injEq] at h
    exact ⟨s0, rfl, h.symm⟩
  | null => simp [jReplaceSlash] at h
  | bool b => simp [jReplaceSlash] at h
  | num n => simp [jReplaceSlash] at h
  | arr xs => simp [jReplaceSlash] at h
  | obj fs => simp [jReplaceSlash] at h

/-- A loop iteration of _parse_outputs that does not raise either performs
the two catalog writes of a kept entry or leaves the catalogs unchanged. -/
theorem parseOutputStep_none {acc acc2 : List (String × Json) × List (Json × String)} {e : Json}
    (h : parseOutputStep acc e = (acc2, none)) :
    (keptOutput e = true ∧
      acc2.1 = dictInsert acc.1 (entryTagOf e) (entryNameOf e) ∧
      acc2.2 = jdictInsert acc.2 (entryNameOf e) (entryTagOf e)) ∨
    (keptOutput e = false ∧ acc2 = acc) := by
  cases e with
  | null => simp [parseOutputStep, pyGetD] at h
  | bool b => simp [parseOutputStep, pyGetD] at h
  | num n => simp [parseOutputStep, pyGetD] at h
  | str s => simp [parseOutputStep, pyGetD] at h
  | arr xs => simp [parseOutputStep, pyGetD] at h
  | obj efs =>
    unfold parseOutputStep at h
    simp only [pyGetD_obj] at h
    cases hen : (objLookup efs "enable").getD Json.null with
    | bool b =>
      rw [hen] at h
      cases b with
      | false =>
        simp only [Prod.mk.injEq] at h
        exact Or.inr ⟨by simp [keptOutput, pyGetD_obj, hen], h.1.symm⟩
      | true =>
        cases htj : (objLookup efs "tag").getD (Json.str "") with
        | str t0 =>
          rw [htj] at h
          simp only [jReplaceSlash] at h
          have htag : entryTagOf (Json.obj efs) = stripSlashes t0 := by
            simp [entryTagOf, pyGetD_obj, htj]
          have hname : entryNameOf (Json.obj efs) = (objLookup efs "name").getD (Json.str "") := by
            simp [entryNameOf, pyGetD_obj]
          by_cases hcond :
              ((stripSlashes t0 != "") && jTruthy ((objLookup efs "name").getD (Json.str ""))) = true
          · rw [if_pos hcond] at h
            by_cases hhash : jHashable ((objLookup efs "name").getD (Json.str "")) = true
            · rw [if_pos hhash] at h
              simp only [Prod.mk.injEq] at h
              obtain ⟨hacc, _⟩ := h
              obtain ⟨hA, hB⟩ : (stripSlashes t0 != "") = true ∧
                  jTruthy ((objLookup efs "name").getD (Json.str "")) = true := by
                simpa using hcond
              refine Or.inl ⟨?_, ?_, ?_⟩
              · simp [keptOutput, pyGetD_obj, hen, htj, hA, hB, hhash]
              · rw [← hacc, htag, hname]
              · rw [← hacc, htag, hname]
            · rw [if_neg hhash] at h
              simp at h
          · rw [if_neg hcond] at h
            simp only [Prod.mk.injEq] at h
            have hkf : keptOutput (Json.obj efs) = false := by
              have hcf : ((stripSlashes t0 != "") &&
                  jTruthy ((objLookup efs "name").getD (Json.str ""))) = false :=
                Bool.eq_false_iff.mpr hcond
              simp [keptOutput, pyGetD_obj, hen, htj, hcf]
            exact Or.inr ⟨hkf, h.1.symm⟩
        | null =>
          rw [htj] at h
          simp [jReplaceSlash] at h
        | bool b2 =>
          rw [htj] at h
          simp [jReplaceSlash] at h
        | num n =>
          rw [htj] at h
          simp [jReplaceSlash] at h
        | arr xs =>
          rw [htj] at h
          simp [jReplaceSlash] at h
        | obj g =>
          rw [htj] at h
          simp [jReplaceSlash] at h
    | null =>
      rw [hen] at h
      simp only [Prod.mk.injEq] at h
      exact Or.inr ⟨by simp [keptOutput, pyGetD_obj, hen], h.1.symm⟩
    | num n =>
      rw [hen] at h
      simp only [Prod.mk.injEq] at h
      exact Or.inr ⟨by simp [keptOutput, pyGetD_obj, hen], h.1.symm⟩
    | str s =>
      rw [hen] at h
      simp only [Prod.mk.injEq] at h
      exact Or.inr ⟨by simp [keptOutput, pyGetD_obj, hen], h.1.symm⟩
    | arr xs =>
      rw [hen] at h
      simp only [Prod.mk.injEq] at h
      exact Or.inr ⟨by simp [keptOutput, pyGetD_obj, hen], h.1.symm⟩
    | obj g =>
      rw [hen] at h
      simp only [Prod.mk.injEq] at h
      exact Or.inr ⟨by simp [keptOutput, pyGetD_obj, hen], h.1.symm⟩

/-- Membership in the tag catalog built by the _parse_outputs loop: a tag is
present exactly when the accumulator already had it or some kept entry
carries it. -/
theorem parseOutputsLoop_mem (entries : List Json) :
    ∀ (acc res : List (String × Json) × List (Json × String)),
      parseOutputsLoop entries acc = (res, none) → ∀ t : String,
      ((∃ n, dictGet res.1 t = some n) ↔
        ((∃ n, dictGet acc.1 t = some n) ∨ ∃ e ∈ entries, keptOutput e = true ∧ entryTagOf e = t)) := by
  induction entries with
  | nil =>
    intro acc res h t
    unfold parseOutputsLoop at h
    simp only [Prod.mk.injEq] at h
    rw [← h.1]
    simp
  | cons e rest ih =>
    intro acc res h t
    unfold parseOutputsLoop at h
    cases hstep : parseOutputStep acc e with
    | mk acc2 errOpt =>
      rw [hstep] at h
      cases errOpt with
      | some err => simp at h
      | none =>
        have hiff := ih acc2 res h t
        rcases parseOutputStep_none hstep with ⟨hk, h1, _⟩ | ⟨hk, heq⟩
        · rw [hiff, h1, dictGet_dictInsert]
          by_cases ht : t = entryTagOf e
          · subst ht
            simp only [if_pos rfl]
            constructor
            · intro _
              exact Or.inr ⟨e, List.mem_cons_self e rest, hk, rfl⟩
            · intro _
              exact Or.inl ⟨entryNameOf e, rfl⟩
          · rw [if_neg ht]
            simp only [List.mem_cons]
            constructor
            · rintro (ha | ⟨e2, he2, hp⟩)
              · exact Or.inl ha
              · exact Or.inr ⟨e2, Or.inr he2, hp⟩
            · rintro (ha | ⟨e2, he2, hp⟩)
              · exact Or.inl ha
              · rcases he2 with rfl | he2
                · exact absurd hp.2 (fun hh => ht hh.symm)
                · exact Or.inr ⟨e2, he2, hp⟩
        · rw [hiff, heq]
          simp only [List.mem_cons]
          constructor
          · rintro (ha | ⟨e2, he2, hp⟩)
            · exact Or.inl ha
            · exact Or.inr ⟨e2, Or.inr he2, hp⟩
          · rintro (ha | ⟨e2, he2, hp⟩)
            · exact Or.inl ha
            · rcases he2 with rfl | he2
              · rw [hp.1] at hk
                exact Bool.noConfusion hk
              · exact Or.inr ⟨e2, he2, hp⟩

/-- C3: rebuilding the output catalog from an input-output payload retains an
entry exactly when its enable field is the boolean true, its slash-stripped
tag is a non-empty string and its name is truthy; in particular the entry
with the integer enable flag 1 is excluded while the boolean-true entry is
included. -/
theorem parse_outputs_enable_filter :
    (∀ (entries : List Json) (old res : List (String × Json) × List (Json × String)),
      parse_outputs (Json.obj [("outputData", Json.arr entries)]) old = (res, none) →
      ∀ t : String,
        ((∃ n, dictGet res.1 t = some n) ↔
          ∃ e ∈ entries, keptOutput e = true ∧ entryTagOf e = t)) ∧
    keptOutput usbIntEntry = false ∧
    keptOutput rcaBoolEntry = true := by
  refine ⟨?_, rfl, rfl⟩
  intro entries old res h t
  have hloop : parseOutputsLoop entries ([], []) = (res, none) := h
  have hmem := parseOutputsLoop_mem entries ([], []) res hloop t
  rw [hmem]
  simp [dictGet]

/-- Witness for C3: parsing the two-entry example payload yields a catalog
holding RCA and not USB. -/
theorem parse_outputs_enable_filter_witness :
    parse_outputs exampleOutputsPayload ([], []) =
      (([("RCA", Json.str "RCA Out")], [(Json.str "RCA Out", "RCA")]), none) ∧
    (∃ n, dictGet [("RCA", Json.str "RCA Out")] "RCA" = some n) ∧
    ¬(∃ n, dictGet [("RCA", Json.str "RCA Out")] "USB" = some n) := by
  have hp : parse_outputs (Json.obj [("outputData", Json.arr [usbIntEntry, rcaBoolEntry])]) ([], []) =
      (([("RCA", Json.str "RCA Out")], [(Json.str "RCA Out", "RCA")]), none) := rfl
  refine ⟨hp, ?_, ?_⟩
  · exact ((parse_outputs_enable_filter.1 [usbIntEntry, rcaBoolEntry] ([], []) _ hp "RCA").mpr
      ⟨rcaBoolEntry, by simp, rfl, rfl⟩)
  · intro hex
    have hcontr := (parse_outputs_enable_filter.1 [usbIntEntry, rcaBoolEntry] ([], []) _ hp "USB").mp hex
    rcases hcontr with ⟨e, he, hkept, htg⟩
    have he2 : e = usbIntEntry ∨ e = rcaBoolEntry := by simpa using he
    rcases he2 with rfl | rfl
    · rw [parse_outputs_enable_filter.2.1] at hkept
      exact Bool.noConfusion hkept
    · exact absurd htg (by decide)
/-- A loop iteration of _parse_sources that does not raise either performs
the two catalog writes of a kept entry or leaves the catalogs unchanged. -/
theorem parseSourceStep_none {acc acc2 : List (String × Json) × List (Json × String)} {e : Json}
    (h : parseSourceStep acc e = (acc2, none)) :
    (keptSource e = true ∧
      acc2.1 = dictInsert acc.1 (entryTagOf e) (entryNameOf e) ∧
      acc2.2 = jdictInsert acc.2 (entryNameOf e) (entryTagOf e)) ∨
    (keptSource e = false ∧ acc2 = acc) := by
  cases e with
  | null => simp [parseSourceStep, pyGetD] at h
  | bool b => simp [parseSourceStep, pyGetD] at h
  | num n => simp [parseSourceStep, pyGetD] at h
  | str s => simp [parseSourceStep, pyGetD] at h
  | arr xs => simp [parseSourceStep, pyGetD] at h
  | obj efs =>
    unfold parseSourceStep at h
    simp only [pyGetD_obj] at h
    cases htj : (objLookup efs "tag").getD (Json.str "") with
    | str t0 =>
      rw [htj] at h
      simp only [jReplaceSlash] at h
      have htag : entryTagOf (Json.obj efs) = stripSlashes t0 := by
        simp [entryTagOf, pyGetD_obj, htj]
      have hname : entryNameOf (Json.obj efs) = (objLookup efs "name").getD (Json.str "") := by
        simp [entryNameOf, pyGetD_obj]
      by_cases hcond :
          ((stripSlashes t0 != "") && jTruthy ((objLookup efs "name").getD (Json.str ""))) = true
      · rw [if_pos hcond] at h
        by_cases hhash : jHashable ((objLookup efs "name").getD (Json.str "")) = true
        · rw [if_pos hhash] at h
          simp only [Prod.mk.injEq] at h
          obtain ⟨hacc, _⟩ := h
          obtain ⟨hA, hB⟩ : (stripSlashes t0 != "") = true ∧
              jTruthy ((objLookup efs "name").getD (Json.str "")) = true := by
            simpa using hcond
          refine Or.inl ⟨?_, ?_, ?_⟩
          · simp [keptSource, pyGetD_obj, htj, hA, hB, hhash]
          · rw [← hacc, htag, hname]
          · rw [← hacc, htag, hname]
        · rw [if_neg hhash] at h
          simp at h
      · rw [if_neg hcond] at h
        simp only [Prod.mk.injEq] at h
        have hkf : keptSource (Json.obj efs) = false := by
          have hcf : ((stripSlashes t0 != "") &&
              jTruthy ((objLookup efs "name").getD (Json.str ""))) = false :=
            Bool.eq_false_iff.mpr hcond
          simp [keptSource, pyGetD_obj, htj, hcf]
        exact Or.inr ⟨hkf, h.1.symm⟩
    | null =>
      rw [htj] at h
      simp [jReplaceSlash] at h
    | bool b2 =>
      rw [htj] at h
      simp [jReplaceSlash] at h
    | num n =>
      rw [htj] at h
      simp [jReplaceSlash] at h
    | arr xs =>
      rw [htj] at h
      simp [jReplaceSlash] at h
    | obj g =>
      rw [htj] at h
      simp [jReplaceSlash] at h

/-- Writing a fresh string key appends at the end of the dict. -/
theorem dictInsert_append {α : Type} {d : List (String × α)} {k : String} (v : α)
    (h : ∀ p ∈ d, p.1 ≠ k) : dictInsert d k v = d ++ [(k, v)] := by
  induction d with
  | nil => rfl
  | cons p rest ih =>
    simp only [dictInsert, beq_iff_eq]
    rw [if_neg (h p (List.mem_cons_self p rest))]
    rw [ih (fun q hq => h q (List.mem_cons_of_mem _ hq))]
    rfl

/-- Writing a fresh JSON key appends at the end of the dict. -/
theorem jdictInsert_append {d : List (Json × String)} {k : Json} (v : String)
    (h : ∀ p ∈ d, jPyEq p.1 k = false) : jdictInsert d k v = d ++ [(k, v)] := by
  induction d with
  | nil => rfl
  | cons p rest ih =>
    simp only [jdictInsert]
    rw [h p (List.mem_cons_self p rest)]
    rw [if_neg (Bool.false_ne_true)]
    rw [ih (fun q hq => h q (List.mem_cons_of_mem _ hq))]
    rfl

/-- Python equality is reflexive on hashable values. -/
theorem jPyEq_refl {a : Json} (h : jHashable a = true) : jPyEq a a = true := by
  cases a with
  | null => rfl
  | bool b => simp [jPyEq]
  | num n => simp [jPyEq]
  | str s => simp [jPyEq]
  | arr xs => simp [jHashable] at h
  | obj fs => simp [jHashable] at h

/-- Facts the source-entry filter guarantees about a kept entry. -/
theorem keptSource_props {e : Json} (h : keptSource e = true) :
    entryTagOf e ≠ "" ∧ jTruthy (entryNameOf e) = true ∧ jHashable (entryNameOf e) = true := by
  cases e with
  | null => simp [keptSource, pyGetD] at h
  | bool b => simp [keptSource, pyGetD] at h
  | num n => simp [keptSource, pyGetD] at h
  | str s => simp [keptSource, pyGetD] at h
  | arr xs => simp [keptSource, pyGetD] at h
  | obj efs =>
    cases htj : (objLookup efs "tag").getD (Json.str "") with
    | str t0 =>
      have hk : ((stripSlashes t0 != "") &&
          jTruthy ((objLookup efs "name").getD (Json.str "")) &&
          jHashable ((objLookup efs "name").getD (Json.str ""))) = true := by
        simpa [keptSource, pyGetD_obj, htj] using h
      obtain ⟨⟨hA, hB⟩, hC⟩ : ((stripSlashes t0 != "") = true ∧
          jTruthy ((objLookup efs "name").getD (Json.str "")) = true) ∧
          jHashable ((objLookup efs "name").getD (Json.str "")) = true := by
        simpa using hk
      have htag : entryTagOf (Json.obj efs) = stripSlashes t0 := by
        simp [entryTagOf, pyGetD_obj, htj]
      have hname : entryNameOf (Json.obj efs) = (objLookup efs "name").getD (Json.str "") := by
        simp [entryNameOf, pyGetD_obj]
      refine ⟨?_, ?_, ?_⟩
      · rw [htag]
        exact bne_iff_ne.mp hA
      · rw [hname]
        exact hB
      · rw [hname]
        exact hC
    | null => simp [keptSource, pyGetD_obj, htj] at h
    | bool b2 => simp [keptSource, pyGetD_obj, htj] at h
    | num n => simp [keptSource, pyGetD_obj, htj] at h
    | arr xs => simp [keptSource, pyGetD_obj, htj] at h
    | obj g => simp [keptSource, pyGetD_obj, htj] at h
/-- The _parse_sources loop under distinctness: when the kept entries have
pairwise distinct stripped tags and pairwise non-equal names, the two
catalogs are exactly the kept entries appended in order. -/
theorem parseSourcesLoop_eq (entries : List Json) :
    ∀ (acc res : List (String × Json) × List (Json × String)),
      parseSourcesLoop entries acc = (res, none) →
      (∀ e ∈ entries, keptSource e = true → ∀ p ∈ acc.1, p.1 ≠ entryTagOf e) →
      (∀ e ∈ entries, keptSource e = true → ∀ p ∈ acc.2, jPyEq p.1 (entryNameOf e) = false) →
      ((entries.filter keptSource).map entryTagOf).Nodup →
      ((entries.filter keptSource).map entryNameOf).Pairwise (fun a b => jPyEq a b = false) →
      res.1 = acc.1 ++ (entries.filter keptSource).map (fun e => (entryTagOf e, entryNameOf e)) ∧
      res.2 = acc.2 ++ (entries.filter keptSource).map (fun e => (entryNameOf e, entryTagOf e)) := by
  induction entries with
  | nil =>
    intro acc res h hd1 hd2 htags hnames
    unfold parseSourcesLoop at h
    simp only [Prod.mk.injEq] at h
    rw [← h.1]
    simp
  | cons e rest ih =>
    intro acc res h hd1 hd2 htags hnames
    unfold parseSourcesLoop at h
    cases hstep : parseSourceStep acc e with
    | mk acc2 errOpt =>
      rw [hstep] at h
      cases errOpt with
      | some err => simp at h
      | none =>
        rcases parseSourceStep_none hstep with ⟨hk, h1, h2⟩ | ⟨hk, heq⟩
        · have hfilter : (e :: rest).filter keptSource = e :: rest.filter keptSource := by
            simp [List.filter_cons, hk]
          rw [hfilter] at htags hnames
          simp only [List.map_cons] at htags hnames
          have htag_notin := (List.nodup_cons.mp htags).1
          have htags2 := (List.nodup_cons.mp htags).2
          have hname_pw := (List.pairwise_cons.mp hnames).1
          have hnames2 := (List.pairwise_cons.mp hnames).2
          have ha1 : acc2.1 = acc.1 ++ [(entryTagOf e, entryNameOf e)] := by
            rw [h1, dictInsert_append _ (hd1 e (List.mem_cons_self e rest) hk)]
          have ha2 : acc2.2 = acc.2 ++ [(entryNameOf e, entryTagOf e)] := by
            rw [h2, jdictInsert_append _ (hd2 e (List.mem_cons_self e rest) hk)]
          have ihres := ih acc2 res h
            (by
              intro e2 he2 hke2 p hp
              rw [ha1] at hp
              rcases List.mem_append.mp hp with hp | hp
              · exact hd1 e2 (List.mem_cons_of_mem _ he2) hke2 p hp
              · have hpe : p = (entryTagOf e, entryNameOf e) := by simpa using hp
                rw [hpe]
                intro hcontra
                apply htag_notin
                rw [show entryTagOf e = entryTagOf e2 from hcontra]
                exact List.mem_map_of_mem entryTagOf (List.mem_filter.mpr ⟨he2, hke2⟩)
            )
            (by
              intro e2 he2 hke2 p hp
              rw [ha2] at hp
              rcases List.mem_append.mp hp with hp | hp
              · exact hd2 e2 (List.mem_cons_of_mem _ he2) hke2 p hp
              · have hpe : p = (entryNameOf e, entryTagOf e) := by simpa using hp
                rw [hpe]
                exact hname_pw _ (List.mem_map_of_mem entryNameOf
                  (List.mem_filter.mpr ⟨he2, hke2⟩))
            )
            htags2 hnames2
          rw [hfilter]
          simp only [List.map_cons]
          constructor
          · rw [ihres.1, ha1]
            simp
          · rw [ihres.2, ha2]
            simp
        · have hfilter : (e :: rest).filter keptSource = rest.filter keptSource := by
            simp [List.filter_cons, hk]
          rw [hfilter] at htags hnames
          have ihres := ih acc2 res h
            (by
              intro e2 he2 hke2 p hp
              rw [heq] at hp
              exact hd1 e2 (List.mem_cons_of_mem _ he2) hke2 p hp)
            (by
              intro e2 he2 hke2 p hp
              rw [heq] at hp
              exact hd2 e2 (List.mem_cons_of_mem _ he2) hke2 p hp)
            htags hnames
          rw [heq] at ihres
          rw [hfilter]
          exact ihres

/-- Looking up the key at a position of a dict whose keys are pairwise
non-equal returns the value at that position. -/
theorem jdictGet_pos (l : List (Json × String)) :
    ∀ (i : Nat) (hi : i < l.length),
      (l.map Prod.fst).Pairwise (fun a b => jPyEq a b = false) →
      jHashable (l[i].1) = true →
      jdictGet l (l[i].1) = some (l[i].2) := by
  induction l with
  | nil => intro i hi; simp at hi
  | cons p rest ih =>
    intro i hi hpw hh
    cases i with
    | zero =>
      simp only [List.getElem_cons_zero] at hh ⊢
      simp [jdictGet, jPyEq_refl hh]
    | succ j =>
      have hj : j < rest.length := by simpa using hi
      simp only [List.getElem_cons_succ] at hh ⊢
      have hmem : rest[j].1 ∈ rest.map Prod.fst :=
        List.mem_map_of_mem Prod.fst (List.getElem_mem hj)
      have hcons := List.pairwise_cons.mp
        (show (p.1 :: rest.map Prod.fst).Pairwise (fun a b => jPyEq a b = false) from hpw)
      have hpf := hcons.1 _ hmem
      simp only [jdictGet, hpf, if_neg Bool.false_ne_true]
      exact ih j hj hcons.2 hh

/-- list.index of the element at a position of a duplicate-free list is that
position. -/
theorem listIndex_nodup (l : List String) :
    ∀ (i : Nat) (hi : i < l.length), l.Nodup → listIndex l (l[i]) = some i := by
  induction l with
  | nil => intro i hi; simp at hi
  | cons a rest ih =>
    intro i hi hnd
    cases i with
    | zero => simp [listIndex]
    | succ j =>
      have hj : j < rest.length := by simpa using hi
      have hne : ¬(a == rest[j]) = true := by
        simp only [beq_iff_eq]
        intro hh
        exact (List.nodup_cons.mp hnd).1 (hh ▸ List.getElem_mem hj)
      simp only [List.getElem_cons_succ, listIndex]
      rw [if_neg hne, ih j hj (List.nodup_cons.mp hnd).2]
      rfl

/-- An entry the output parser keeps also passes the source-entry filter:
keptOutput adds the enable check on top of the keptSource conditions. -/
theorem keptSource_of_keptOutput {e : Json} (h : keptOutput e = true) : keptSource e = true := by
  cases e with
  | null => simp [keptOutput, pyGetD] at h
  | bool b => simp [keptOutput, pyGetD] at h
  | num n => simp [keptOutput, pyGetD] at h
  | str s => simp [keptOutput, pyGetD] at h
  | arr xs => simp [keptOutput, pyGetD] at h
  | obj efs =>
    cases hen : (objLookup efs "enable").getD Json.null with
    | bool b =>
      cases b with
      | true =>
        cases htj : (objLookup efs "tag").getD (Json.str "") with
        | str t0 =>
          have hk : ((stripSlashes t0 != "") &&
              jTruthy ((objLookup efs "name").getD (Json.str "")) &&
              jHashable ((objLookup efs "name").getD (Json.str ""))) = true := by
            simpa [keptOutput, pyGetD_obj, hen, htj] using h
          simpa [keptSource, pyGetD_obj, htj] using hk
        | null => simp [keptOutput, pyGetD_obj, hen, htj] at h
        | bool b2 => simp [keptOutput, pyGetD_obj, hen, htj] at h
        | num n => simp [keptOutput, pyGetD_obj, hen, htj] at h
        | arr xs => simp [keptOutput, pyGetD_obj, hen, htj] at h
        | obj g => simp [keptOutput, pyGetD_obj, hen, htj] at h
      | false => simp [keptOutput, pyGetD_obj, hen] at h
    | null => simp [keptOutput, pyGetD_obj, hen] at h
    | num n => simp [keptOutput, pyGetD_obj, hen] at h
    | str s2 => simp [keptOutput, pyGetD_obj, hen] at h
    | arr xs => simp [keptOutput, pyGetD_obj, hen] at h
    | obj g => simp [keptOutput, pyGetD_obj, hen] at h

/-- The _parse_outputs loop under distinctness: when the kept entries have
pairwise distinct stripped tags and pairwise non-equal names, the two
catalogs are exactly the kept entries appended in order. -/
theorem parseOutputsLoop_eq (entries : List Json) :
    ∀ (acc res : List (String × Json) × List (Json × String)),
      parseOutputsLoop entries acc = (res, none) →
      (∀ e ∈ entries, keptOutput e = true → ∀ p ∈ acc.1, p.1 ≠ entryTagOf e) →
      (∀ e ∈ entries, keptOutput e = true → ∀ p ∈ acc.2, jPyEq p.1 (entryNameOf e) = false) →
      ((entries.filter keptOutput).map entryTagOf).Nodup →
      ((entries.filter keptOutput).map entryNameOf).Pairwise (fun a b => jPyEq a b = false) →
      res.1 = acc.1 ++ (entries.filter keptOutput).map (fun e => (entryTagOf e, entryNameOf e)) ∧
      res.2 = acc.2 ++ (entries.filter keptOutput).map (fun e => (entryNameOf e, entryTagOf e)) := by
  induction entries with
  | nil =>
    intro acc res h hd1 hd2 htags hnames
    unfold parseOutputsLoop at h
    simp only [Prod.mk.injEq] at h
    rw [← h.1]
    simp
  | cons e rest ih =>
    intro acc res h hd1 hd2 htags hnames
    unfold parseOutputsLoop at h
    cases hstep : parseOutputStep acc e with
    | mk acc2 errOpt =>
      rw [hstep] at h
      cases errOpt with
      | some err => simp at h
      | none =>
        rcases parseOutputStep_none hstep with ⟨hk, h1, h2⟩ | ⟨hk, heq⟩
        · have hfilter : (e :: rest).filter keptOutput = e :: rest.filter keptOutput := by
            simp [List.filter_cons, hk]
          rw [hfilter] at htags hnames
          simp only [List.map_cons] at htags hnames
          have htag_notin := (List.nodup_cons.mp htags).1
          have htags2 := (List.nodup_cons.mp htags).2
          have hname_pw := (List.pairwise_cons.mp hnames).1
          have hnames2 := (List.pairwise_cons.mp hnames).2
          have ha1 : acc2.1 = acc.1 ++ [(entryTagOf e, entryNameOf e)] := by
            rw [h1, dictInsert_append _ (hd1 e (List.mem_cons_self e rest) hk)]
          have ha2 : acc2.2 = acc.2 ++ [(entryNameOf e, entryTagOf e)] := by
            rw [h2, jdictInsert_append _ (hd2 e (List.mem_cons_self e rest) hk)]
          have ihres := ih acc2 res h
            (by
              intro e2 he2 hke2 p hp
              rw [ha1] at hp
              rcases List.mem_append.mp hp with hp | hp
              · exact hd1 e2 (List.mem_cons_of_mem _ he2) hke2 p hp
              · have hpe : p = (entryTagOf e, entryNameOf e) := by simpa using hp
                rw [hpe]
                intro hcontra
                apply htag_notin
                rw [show entryTagOf e = entryTagOf e2 from hcontra]
                exact List.mem_map_of_mem entryTagOf (List.mem_filter.mpr ⟨he2, hke2⟩)
            )
            (by
              intro e2 he2 hke2 p hp
              rw [ha2] at hp
              rcases List.mem_append.mp hp with hp | hp
              · exact hd2 e2 (List.mem_cons_of_mem _ he2) hke2 p hp
              · have hpe : p = (entryNameOf e, entryTagOf e) := by simpa using hp
                rw [hpe]
                exact hname_pw _ (List.mem_map_of_mem entryNameOf
                  (List.mem_filter.mpr ⟨he2, hke2⟩))
            )
            htags2 hnames2
          rw [hfilter]
          simp only [List.map_cons]
          constructor
          · rw [ihres.1, ha1]
            simp
          · rw [ihres.2, ha2]
            simp
        · have hfilter : (e :: rest).filter keptOutput = rest.filter keptOutput := by
            simp [List.filter_cons, hk]
          rw [hfilter] at htags hnames
          have ihres := ih acc2 res h
            (by
              intro e2 he2 hke2 p hp
              rw [heq] at hp
              exact hd1 e2 (List.mem_cons_of_mem _ he2) hke2 p hp)
            (by
              intro e2 he2 hke2 p hp
              rw [heq] at hp
              exact hd2 e2 (List.mem_cons_of_mem _ he2) hke2 p hp)
            htags hnames
          rw [heq] at ihres
          rw [hfilter]
          exact ihres

/-- Index invariants shared by both catalog sides: when the catalogs list a
sequence of entries whose tags are non-empty and distinct and whose names are
truthy, hashable and pairwise non-equal, tags and names are unique, the name
at each position looks up to the tag at that position, the tag sits at its
own index, and positional access returns the name at that position. -/
theorem catalogIndexInvariants
    (L : List Json)
    (res : List (String × Json) × List (Json × String))
    (h1 : res.1 = L.map (fun e => (entryTagOf e, entryNameOf e)))
    (h2 : res.2 = L.map (fun e => (entryNameOf e, entryTagOf e)))
    (hprops : ∀ e ∈ L,
      entryTagOf e ≠ "" ∧ jTruthy (entryNameOf e) = true ∧ jHashable (entryNameOf e) = true)
    (htags : (L.map entryTagOf).Nodup)
    (hnames : (L.map entryNameOf).Pairwise (fun a b => jPyEq a b = false)) :
    (res.1.map Prod.fst).Nodup ∧
    (res.2.map Prod.fst).Pairwise (fun a b => jPyEq a b = false) ∧
    (∀ (i : Nat) (hi : i < res.1.length),
      res.1[i].1 ≠ "" ∧
      jdictGet res.2 res.1[i].2 = some res.1[i].1 ∧
      listIndex (res.1.map Prod.fst) res.1[i].1 = some i ∧
      (res.1.map Prod.snd).get? i = some res.1[i].2) := by
  have hm1 : res.1.map Prod.fst = L.map entryTagOf := by
    rw [h1, List.map_map]
    rfl
  have hm2 : res.2.map Prod.fst = L.map entryNameOf := by
    rw [h2, List.map_map]
    rfl
  have hnd : (res.1.map Prod.fst).Nodup := by rw [hm1]; exact htags
  have hpw : (res.2.map Prod.fst).Pairwise (fun a b => jPyEq a b = false) := by
    rw [hm2]; exact hnames
  refine ⟨hnd, hpw, ?_⟩
  intro i hi
  have hlen1 : res.1.length = L.length := by rw [h1]; simp
  have hki : i < L.length := by rw [← hlen1]; exact hi
  have hlen2 : res.2.length = L.length := by rw [h2]; simp
  have hi2 : i < res.2.length := by rw [hlen2]; exact hki
  have hg1 : res.1[i] = (entryTagOf L[i], entryNameOf L[i]) := by
    simp only [h1, List.getElem_map]
  have hg2 : res.2[i] = (entryNameOf L[i], entryTagOf L[i]) := by
    simp only [h2, List.getElem_map]
  obtain ⟨htne, hntr, hnh⟩ := hprops L[i] (List.getElem_mem hki)
  have hlook : jdictGet res.2 res.1[i].2 = some res.1[i].1 := by
    have hj := jdictGet_pos res.2 i hi2 hpw (by rw [hg2]; exact hnh)
    rw [hg2] at hj
    rw [hg1]
    exact hj
  have hmapLen : i < (res.1.map Prod.fst).length := by
    rw [List.length_map]
    exact hi
  have hgm : (res.1.map Prod.fst)[i] = res.1[i].1 := by
    simp only [List.getElem_map]
  have hidx : listIndex (res.1.map Prod.fst) res.1[i].1 = some i := by
    have hl := listIndex_nodup (res.1.map Prod.fst) i hmapLen hnd
    rw [hgm] at hl
    exact hl
  have hq : (res.1.map Prod.snd).get? i = some (res.1[i].2) := by
    rw [List.get?_eq_getElem?, List.getElem?_map, List.getElem?_eq_getElem hi]
    rfl
  exact ⟨by rw [hg1]; exact htne, hlook, hidx, hq⟩

/-- C9 counterexample: a payload whose two source entries share the name X
rebuilds catalogs in which names are not unique and the maps are not
mutually inverse: tag A maps to name X, but name X maps back to tag B. -/
theorem catalog_duplicate_names_counterexample :
    parse_sources dupNamePayload ([], []) =
      (([("A", Json.str "X"), ("B", Json.str "X")], [(Json.str "X", "B")]), none) ∧
    ¬((([("A", Json.str "X"), ("B", Json.str "X")] : List (String × Json)).map Prod.snd).Nodup) ∧
    dictGet [("A", Json.str "X"), ("B", Json.str "X")] "A" = some (Json.str "X") ∧
    jdictGet [(Json.str "X", "B")] (Json.str "X") = some "B" ∧
    ("B" : String) ≠ "A" := by
  refine ⟨rfl, ?_, rfl, rfl, by decide⟩
  intro hnd
  simp only [List.map_cons, List.map_nil] at hnd
  exact (List.nodup_cons.mp hnd).1 (List.mem_singleton.mpr rfl)

/-- C9 (amended): after a catalog rebuild from a payload whose kept source
entries and kept output entries each have pairwise distinct stripped tags
and pairwise non-equal names, the source and output catalogs list exactly
the kept entries in order, tags and names are unique within each catalog,
the name-to-tag maps invert the tag-to-name maps positionally, and for every
position i the tag at i sits at index i — the index select_source and
select_output issue when selecting the name at i by string, and the index
get_current_source and get_current_output resolve back to that name.
Without the distinctness assumption the invariant fails (see the
counterexample). -/
theorem catalog_rebuild_invariants
    (ins outs : List Json)
    (res resO : List (String × Json) × List (Json × String))
    (hres : parse_sources
      (Json.obj [("inputData", Json.arr ins), ("outputData", Json.arr outs)]) ([], []) =
      (res, none))
    (hresO : parse_outputs
      (Json.obj [("inputData", Json.arr ins), ("outputData", Json.arr outs)]) ([], []) =
      (resO, none))
    (htags : ((ins.filter keptSource).map entryTagOf).Nodup)
    (hnames : ((ins.filter keptSource).map entryNameOf).Pairwise (fun a b => jPyEq a b = false))
    (htagsO : ((outs.filter keptOutput).map entryTagOf).Nodup)
    (hnamesO : ((outs.filter keptOutput).map entryNameOf).Pairwise (fun a b => jPyEq a b = false)) :
    res.1 = (ins.filter keptSource).map (fun e => (entryTagOf e, entryNameOf e)) ∧
    res.2 = (ins.filter keptSource).map (fun e => (entryNameOf e, entryTagOf e)) ∧
    (res.1.map Prod.fst).Nodup ∧
    (res.2.map Prod.fst).Pairwise (fun a b => jPyEq a b = false) ∧
    (∀ (i : Nat) (hi : i < res.1.length),
      jdictGet res.2 res.1[i].2 = some res.1[i].1 ∧
      listIndex (res.1.map Prod.fst) res.1[i].1 = some i ∧
      (∀ s, res.1[i].2 = Json.str s →
        select_source (mkCatalogState res (Json.num i)) s (.ok ()) =
          (true, mkCatalogState res (Json.num i), [{ tag := res.1[i].1, index := i }])) ∧
      get_current_source (mkCatalogState res (Json.num i)) = .ok (some res.1[i].2)) ∧
    resO.1 = (outs.filter keptOutput).map (fun e => (entryTagOf e, entryNameOf e)) ∧
    resO.2 = (outs.filter keptOutput).map (fun e => (entryNameOf e, entryTagOf e)) ∧
    (resO.1.map Prod.fst).Nodup ∧
    (resO.2.map Prod.fst).Pairwise (fun a b => jPyEq a b = false) ∧
    (∀ (j : Nat) (hj : j < resO.1.length),
      jdictGet resO.2 resO.1[j].2 = some resO.1[j].1 ∧
      listIndex (resO.1.map Prod.fst) resO.1[j].1 = some j ∧
      (∀ s, resO.1[j].2 = Json.str s →
        select_output (mkOutCatalogState resO (Json.num j)) s (.ok ()) =
          (true, mkOutCatalogState resO (Json.num j), [{ tag := resO.1[j].1, index := j }])) ∧
      get_current_output (mkOutCatalogState resO (Json.num j)) = .ok (some resO.1[j].2)) := by
  have hloop : parseSourcesLoop ins ([], []) = (res, none) := hres
  have hloopO : parseOutputsLoop outs ([], []) = (resO, none) := hresO
  obtain ⟨h1, h2⟩ := parseSourcesLoop_eq ins ([], []) res hloop
    (by intro e he hk p hp; simp at hp)
    (by intro e he hk p hp; simp at hp)
    htags hnames
  simp only [List.nil_append] at h1 h2
  obtain ⟨h1O, h2O⟩ := parseOutputsLoop_eq outs ([], []) resO hloopO
    (by intro e he hk p hp; simp at hp)
    (by intro e he hk p hp; simp at hp)
    htagsO hnamesO
  simp only [List.nil_append] at h1O h2O
  obtain ⟨hnd, hpw, hinv⟩ := catalogIndexInvariants (ins.filter keptSource) res h1 h2
    (fun e he => keptSource_props (List.mem_filter.mp he).2) htags hnames
  obtain ⟨hndO, hpwO, hinvO⟩ := catalogIndexInvariants (outs.filter keptOutput) resO h1O h2O
    (fun e he => keptSource_props (keptSource_of_keptOutput (List.mem_filter.mp he).2))
    htagsO hnamesO
  refine ⟨h1, h2, hnd, hpw, ?_, h1O, h2O, hndO, hpwO, ?_⟩
  · intro i hi
    obtain ⟨htne, hlook, hidx, hq⟩ := hinv i hi
    have hcursor : get_current_source (mkCatalogState res (Json.num i)) = .ok (some res.1[i].2) := by
      have hstep1 : get_current_source (mkCatalogState res (Json.num i)) =
          (if 0 ≤ (i : Int) ∧ (i : Int) < (res.1.length : Int) then
            pure ((res.1.map Prod.snd).get? (i : Int).toNat)
          else pure none) := rfl
      rw [hstep1, if_pos ⟨Int.natCast_nonneg i, by exact_mod_cast hi⟩]
      rw [Int.toNat_natCast, hq]
      rfl
    refine ⟨hlook, hidx, ?_, hcursor⟩
    intro s hs
    have hlook2 : jdictGet res.2 (Json.str s) = some (res.1[i].1) := by
      rw [← hs]
      exact hlook
    have hne : ¬(res.1[i].1 == "") = true := by
      simp only [beq_iff_eq]
      exact htne
    have hsel : select_source (mkCatalogState res (Json.num i)) s (.ok ()) =
        (if (res.1[i].1 == "") = true then (false, mkCatalogState res (Json.num i), [])
         else
           match listIndex (res.1.map Prod.fst) (res.1[i].1) with
           | none => (false, mkCatalogState res (Json.num i), [])
           | some index =>
               (true, mkCatalogState res (Json.num i), [{ tag := res.1[i].1, index := index }])) := by
      unfold select_source
      rw [show (mkCatalogState res (Json.num i)).source_tags = res.2 from rfl, hlook2]
      rfl
    rw [hsel, if_neg hne, hidx]
  · intro j hj
    obtain ⟨htne, hlook, hidx, hq⟩ := hinvO j hj
    have hcursor : get_current_output (mkOutCatalogState resO (Json.num j)) =
        .ok (some resO.1[j].2) := by
      have hstep1 : get_current_output (mkOutCatalogState resO (Json.num j)) =
          (if 0 ≤ (j : Int) ∧ (j : Int) < (resO.1.length : Int) then
            pure ((resO.1.map Prod.snd).get? (j : Int).toNat)
          else pure none) := rfl
      rw [hstep1, if_pos ⟨Int.natCast_nonneg j, by exact_mod_cast hj⟩]
      rw [Int.toNat_natCast, hq]
      rfl
    refine ⟨hlook, hidx, ?_, hcursor⟩
    intro s hs
    have hlook2 : jdictGet resO.2 (Json.str s) = some (resO.1[j].1) := by
      rw [← hs]
      exact hlook
    have hne : ¬(resO.1[j].1 == "") = true := by
      simp only [beq_iff_eq]
      exact htne
    have hsel : select_output (mkOutCatalogState resO (Json.num j)) s (.ok ()) =
        (if (resO.1[j].1 == "") = true then (false, mkOutCatalogState resO (Json.num j), [])
         else
           match listIndex (resO.1.map Prod.fst) (resO.1[j].1) with
           | none => (false, mkOutCatalogState resO (Json.num j), [])
           | some index =>
               (true, mkOutCatalogState resO (Json.num j),
                 [{ tag := resO.1[j].1, index := index }])) := by
      unfold select_output
      rw [show (mkOutCatalogState resO (Json.num j)).output_tags = resO.2 from rfl, hlook2]
      rfl
    rw [hsel, if_neg hne, hidx]

/-- Witness for C9 (amended): a payload with two distinct-tagged sources and
two distinct-tagged enabled outputs rebuilds unique catalogs on both sides;
the second source selects with index 1 and resolves back from index 1, and
so does the second output. -/
theorem catalog_rebuild_invariants_witness :
    parse_sources catalogExamplePayload ([], []) = (srcExampleCat, none) ∧
    parse_outputs catalogExamplePayload ([], []) = (outExampleCat, none) ∧
    (srcExampleCat.1.map Prod.fst).Nodup ∧
    (outExampleCat.1.map Prod.fst).Nodup ∧
    select_source (mkCatalogState srcExampleCat (Json.num 1)) "USB In" (.ok ()) =
      (true, mkCatalogState srcExampleCat (Json.num 1), [{ tag := "USB", index := 1 }]) ∧
    get_current_source (mkCatalogState srcExampleCat (Json.num 1)) =
      .ok (some (Json.str "USB In")) ∧
    select_output (mkOutCatalogState outExampleCat (Json.num 1)) "HDMI Out" (.ok ()) =
      (true, mkOutCatalogState outExampleCat (Json.num 1), [{ tag := "HDMI", index := 1 }]) ∧
    get_current_output (mkOutCatalogState outExampleCat (Json.num 1)) =
      .ok (some (Json.str "HDMI Out")) := by
  have hres : parse_sources (Json.obj [("inputData", Json.arr
      [Json.obj [("tag", Json.str "XLR"), ("name", Json.str "XLR In")],
       Json.obj [("tag", Json.str "USB"), ("name", Json.str "USB In")]]),
      ("outputData", Json.arr
      [Json.obj [("enable", Json.bool true), ("tag", Json.str "SPDIF"), ("name", Json.str "SPDIF Out")],
       Json.obj [("enable", Json.bool true), ("tag", Json.str "HDMI"), ("name", Json.str "HDMI Out")]])])
      ([], []) = (srcExampleCat, none) := rfl
  have hresO : parse_outputs (Json.obj [("inputData", Json.arr
      [Json.obj [("tag", Json.str "XLR"), ("name", Json.str "XLR In")],
       Json.obj [("tag", Json.str "USB"), ("name", Json.str "USB In")]]),
      ("outputData", Json.arr
      [Json.obj [("enable", Json.bool true), ("tag", Json.str "SPDIF"), ("name", Json.str "SPDIF Out")],
       Json.obj [("enable", Json.bool true), ("tag", Json.str "HDMI"), ("name", Json.str "HDMI Out")]])])
      ([], []) = (outExampleCat, none) := rfl
  have hpair : ((([Json.obj [("tag", Json.str "XLR"), ("name", Json.str "XLR In")],
      Json.obj [("tag", Json.str "USB"), ("name", Json.str "USB In")]]).filter
        keptSource).map entryNameOf).Pairwise (fun a b => jPyEq a b = false) := by
    show ([Json.str "XLR In", Json.str "USB In"] : List Json).Pairwise (fun a b => jPyEq a b = false)
    refine List.Pairwise.cons (fun b hb => ?_) (List.Pairwise.cons (fun b hb => ?_) List.Pairwise.nil)
    · have hb2 : b = Json.str "USB In" := List.mem_singleton.mp hb
      rw [hb2]
      rfl
    · exact absurd hb (List.not_mem_nil b)
  have hpairO : ((([Json.obj [("enable", Json.bool true), ("tag", Json.str "SPDIF"), ("name", Json.str "SPDIF Out")],
      Json.obj [("enable", Json.bool true), ("tag", Json.str "HDMI"), ("name", Json.str "HDMI Out")]]).filter
        keptOutput).map entryNameOf).Pairwise (fun a b => jPyEq a b = false) := by
    show ([Json.str "SPDIF Out", Json.str "HDMI Out"] : List Json).Pairwise
      (fun a b => jPyEq a b = false)
    refine List.Pairwise.cons (fun b hb => ?_) (List.Pairwise.cons (fun b hb => ?_) List.Pairwise.nil)
    · have hb2 : b = Json.str "HDMI Out" := List.mem_singleton.mp hb
      rw [hb2]
      rfl
    · exact absurd hb (List.not_mem_nil b)
  have h := catalog_rebuild_invariants
    [Json.obj [("tag", Json.str "XLR"), ("name", Json.str "XLR In")],
     Json.obj [("tag", Json.str "USB"), ("name", Json.str "USB In")]]
    [Json.obj [("enable", Json.bool true), ("tag", Json.str "SPDIF"), ("name", Json.str "SPDIF Out")],
     Json.obj [("enable", Json.bool true), ("tag", Json.str "HDMI"), ("name", Json.str "HDMI Out")]]
    srcExampleCat outExampleCat hres hresO (by decide) hpair (by decide) hpairO
  refine ⟨rfl, rfl, h.2.2.1, h.2.2.2.2.2.2.2.1, ?_, ?_, ?_, ?_⟩
  · exact (h.2.2.2.2.1 1 (by decide)).2.2.1 "USB In" rfl
  · exact (h.2.2.2.2.1 1 (by decide)).2.2.2
  · exact (h.2.2.2.2.2.2.2.2.2 1 (by decide)).2.2.1 "HDMI Out" rfl
  · exact (h.2.2.2.2.2.2.2.2.2 1 (by decide)).2.2.2
